import Mathlib

/-
Verification of the dex-chart-service ingestion pipeline.

This file gives a shallow embedding, in Lean 4, of the parts of the
TypeScript source that the specification's claims are about:

- the swap price resolver (backend/services/PriceCalculator.ts, class
  PriceCalculator, and the enhanced variant PriceCalculatorEnhanced),
- the trade storage statements of SwapProcessor.processSwap and
  EnhancedDexIndexer.handleSwap (insert-or-ignore vs upsert semantics),
- the candle derivation and merge of EnhancedDexIndexer.generateCandles,
- the pair/token registration of EnhancedDexIndexer.indexToken,
  indexPair and indexPairWithData,
- the websocket fanout server (subscription reference counting and
  snapshot emission).

JavaScript floating point numbers are modelled by exact rationals; the
claims under scrutiny concern the algebraic structure of the formulas,
not rounding.  JavaScript bigint amounts are modelled by natural
numbers (swap event amounts are unsigned).  Division in the source is
additionally instrumented by a checked variant returning Option, used
to settle the never-divides-by-zero claims; in the plain rational
model division by zero is total, so the checked variant is what ties
the model to the JavaScript semantics where x / 0 is Infinity.
-/

/-- ASCII lower-casing of a string, modelling the JavaScript
String.prototype.toLowerCase calls applied to hex addresses. -/
def toLowerStr (s : String) : String := String.mk (s.data.map Char.toLower)

/-- Division instrumented for division-by-zero detection: none exactly
when the denominator is zero. -/
def cdiv (a b : ℚ) : Option ℚ := if b = 0 then none else some (a / b)

theorem cdiv_of_ne_zero {a b : ℚ} (h : b ≠ 0) : cdiv a b = some (a / b) := by
  simp [cdiv, h]

/-- Per-token price triple (interface TokenPrice of PriceCalculator.ts). -/
structure TokenPrice where
  priceInOPN : ℚ
  priceInUSD : ℚ
  priceInverse : ℚ
deriving DecidableEq, Repr

/-- Result of resolving a swap (interface PriceUpdate of
PriceCalculator.ts).  The derived pair-address field and the token
address echo fields are omitted; every numeric field is kept. -/
structure PriceUpdate where
  token0Price : TokenPrice
  token1Price : TokenPrice
  volume24h : ℚ
  volumeUSD24h : ℚ
  priceChange24h : ℚ
  liquidity : ℚ
  liquidityUSD : ℚ
  txCount24h : ℚ
  marketCap : ℚ
  fdv : ℚ
deriving DecidableEq, Repr

namespace PriceCalculator

/-- The designated quote asset address (WOPN), lower-cased as in the
source class field. -/
def WOPN_ADDRESS : String := toLowerStr "0xBc022C9dEb5AF250A526321d16Ef52E39b4DBD84"

/-- Fixed fiat price of the quote asset: 0.05 USD. -/
def OPN_PRICE_USD : ℚ := 5 / 100

def STABLE_COINS : List String := ["usdt", "usdc", "busd", "dai", "tusd", "usdp"]

/-- PriceCalculator.isStablecoin: substring test of known stablecoin
symbols against the lower-cased address. -/
def isStablecoin (tokenAddress : String) : Bool :=
  let lowerAddr := toLowerStr tokenAddress
  STABLE_COINS.any (fun stable => lowerAddr.containsSubstr stable.toSubstring)

/-- PriceCalculator.calculateNonWOPNPairPrice: pricing for pairs in
which neither token is WOPN, by stablecoin detection or zero
placeholders. -/
def calculateNonWOPNPairPrice (tokenA tokenB : String)
    (amountAIn amountBOut _reserveA _reserveB : ℚ) : Option PriceUpdate :=
  let rate := amountBOut / amountAIn
  let tokenAIsStable := isStablecoin tokenA
  let tokenBIsStable := isStablecoin tokenB
  let prices : TokenPrice × TokenPrice :=
    if tokenAIsStable then
      (⟨1 / OPN_PRICE_USD, 1, OPN_PRICE_USD⟩,
       ⟨(1 / rate) / OPN_PRICE_USD, 1 / rate, rate⟩)
    else if tokenBIsStable then
      (⟨rate / OPN_PRICE_USD, rate, 1 / rate⟩,
       ⟨1 / OPN_PRICE_USD, 1, OPN_PRICE_USD⟩)
    else
      (⟨0, 0, 0⟩, ⟨0, 0, 0⟩)
  some { token0Price := prices.1
         token1Price := prices.2
         volume24h := 0
         volumeUSD24h := amountAIn * prices.1.priceInUSD
         priceChange24h := 0
         liquidity := 0
         liquidityUSD := 0
         txCount24h := 1
         marketCap := 0
         fdv := 0 }

/-- PriceCalculator.calculateSwapPrice: resolve a swap event into a
PriceUpdate, or null for degenerate input.  Raw bigint amounts are
scaled by ten to the eighteenth as in the source. -/
def calculateSwapPrice (token0 token1 : String)
    (amount0In amount1In amount0Out amount1Out reserve0 reserve1 : ℕ) :
    Option PriceUpdate :=
  let isToken0WOPN := toLowerStr token0 == WOPN_ADDRESS
  let isToken1WOPN := toLowerStr token1 == WOPN_ADDRESS
  let amt0In : ℚ := (amount0In : ℚ) / 10 ^ 18
  let amt1In : ℚ := (amount1In : ℚ) / 10 ^ 18
  let amt0Out : ℚ := (amount0Out : ℚ) / 10 ^ 18
  let amt1Out : ℚ := (amount1Out : ℚ) / 10 ^ 18
  let res0 : ℚ := (reserve0 : ℚ) / 10 ^ 18
  let res1 : ℚ := (reserve1 : ℚ) / 10 ^ 18
  let liquidityInOPN : ℚ :=
    if isToken0WOPN then res0 * 2 else if isToken1WOPN then res1 * 2 else 0
  let liquidityUSD := liquidityInOPN * OPN_PRICE_USD
  let finish := fun (token0Price token1Price : TokenPrice)
      (volumeInOPN volumeInUSD : ℚ) =>
    some { token0Price := token0Price
           token1Price := token1Price
           volume24h := volumeInOPN
           volumeUSD24h := volumeInUSD
           priceChange24h := 0
           liquidity := liquidityInOPN
           liquidityUSD := liquidityUSD
           txCount24h := 1
           marketCap := 0
           fdv := 0 }
  if amt0In > 0 ∧ amt1Out > 0 then
    let rate := amt1Out / amt0In
    if isToken0WOPN then
      finish ⟨1, OPN_PRICE_USD, 1⟩
        ⟨1 / rate, (1 / rate) * OPN_PRICE_USD, rate⟩
        amt0In (amt0In * OPN_PRICE_USD)
    else if isToken1WOPN then
      finish ⟨rate, rate * OPN_PRICE_USD, 1 / rate⟩
        ⟨1, OPN_PRICE_USD, 1⟩
        amt1Out (amt1Out * OPN_PRICE_USD)
    else
      calculateNonWOPNPairPrice token0 token1 amt0In amt1Out res0 res1
  else if amt1In > 0 ∧ amt0Out > 0 then
    let rate := amt0Out / amt1In
    if isToken1WOPN then
      finish ⟨1 / rate, (1 / rate) * OPN_PRICE_USD, rate⟩
        ⟨1, OPN_PRICE_USD, 1⟩
        amt1In (amt1In * OPN_PRICE_USD)
    else if isToken0WOPN then
      finish ⟨1, OPN_PRICE_USD, 1⟩
        ⟨rate, rate * OPN_PRICE_USD, 1 / rate⟩
        amt0Out (amt0Out * OPN_PRICE_USD)
    else
      calculateNonWOPNPairPrice token1 token0 amt1In amt0Out res1 res0
  else
    none

/-- Division-instrumented variant of calculateNonWOPNPairPrice: one
cdiv per division site of the source with a non-constant denominator
group, returning none exactly when a division by zero would occur. -/
def calculateNonWOPNPairPriceChecked (tokenA tokenB : String)
    (amountAIn amountBOut _reserveA _reserveB : ℚ) : Option (Option PriceUpdate) := do
  let rate ← cdiv amountBOut amountAIn
  let tokenAIsStable := isStablecoin tokenA
  let tokenBIsStable := isStablecoin tokenB
  let prices : TokenPrice × TokenPrice ←
    if tokenAIsStable then do
      let stableOPN ← cdiv 1 OPN_PRICE_USD
      let rateInv ← cdiv 1 rate
      let otherOPN ← cdiv rateInv OPN_PRICE_USD
      pure (⟨stableOPN, 1, OPN_PRICE_USD⟩, ⟨otherOPN, rateInv, rate⟩)
    else if tokenBIsStable then do
      let stableOPN ← cdiv 1 OPN_PRICE_USD
      let rateOPN ← cdiv rate OPN_PRICE_USD
      let rateInv ← cdiv 1 rate
      pure (⟨rateOPN, rate, rateInv⟩, ⟨stableOPN, 1, OPN_PRICE_USD⟩)
    else
      pure (⟨0, 0, 0⟩, ⟨0, 0, 0⟩)
  pure (some { token0Price := prices.1
               token1Price := prices.2
               volume24h := 0
               volumeUSD24h := amountAIn * prices.1.priceInUSD
               priceChange24h := 0
               liquidity := 0
               liquidityUSD := 0
               txCount24h := 1
               marketCap := 0
               fdv := 0 })

/-- Division-instrumented variant of calculateSwapPrice.  The scaling
divisions by ten to the eighteenth have a constant nonzero denominator
and stay plain. -/
def calculateSwapPriceChecked (token0 token1 : String)
    (amount0In amount1In amount0Out amount1Out reserve0 reserve1 : ℕ) :
    Option (Option PriceUpdate) :=
  let isToken0WOPN := toLowerStr token0 == WOPN_ADDRESS
  let isToken1WOPN := toLowerStr token1 == WOPN_ADDRESS
  let amt0In : ℚ := (amount0In : ℚ) / 10 ^ 18
  let amt1In : ℚ := (amount1In : ℚ) / 10 ^ 18
  let amt0Out : ℚ := (amount0Out : ℚ) / 10 ^ 18
  let amt1Out : ℚ := (amount1Out : ℚ) / 10 ^ 18
  let res0 : ℚ := (reserve0 : ℚ) / 10 ^ 18
  let res1 : ℚ := (reserve1 : ℚ) / 10 ^ 18
  let liquidityInOPN : ℚ :=
    if isToken0WOPN then res0 * 2 else if isToken1WOPN then res1 * 2 else 0
  let liquidityUSD := liquidityInOPN * OPN_PRICE_USD
  let finish := fun (token0Price token1Price : TokenPrice)
      (volumeInOPN volumeInUSD : ℚ) =>
    some { token0Price := token0Price
           token1Price := token1Price
           volume24h := volumeInOPN
           volumeUSD24h := volumeInUSD
           priceChange24h := 0
           liquidity := liquidityInOPN
           liquidityUSD := liquidityUSD
           txCount24h := 1
           marketCap := 0
           fdv := 0 }
  if amt0In > 0 ∧ amt1Out > 0 then do
    let rate ← cdiv amt1Out amt0In
    if isToken0WOPN then do
      let rateInv ← cdiv 1 rate
      pure (finish ⟨1, OPN_PRICE_USD, 1⟩
        ⟨rateInv, rateInv * OPN_PRICE_USD, rate⟩
        amt0In (amt0In * OPN_PRICE_USD))
    else if isToken1WOPN then do
      let rateInv ← cdiv 1 rate
      pure (finish ⟨rate, rate * OPN_PRICE_USD, rateInv⟩
        ⟨1, OPN_PRICE_USD, 1⟩
        amt1Out (amt1Out * OPN_PRICE_USD))
    else
      calculateNonWOPNPairPriceChecked token0 token1 amt0In amt1Out res0 res1
  else if amt1In > 0 ∧ amt0Out > 0 then do
    let rate ← cdiv amt0Out amt1In
    if isToken1WOPN then do
      let rateInv ← cdiv 1 rate
      pure (finish ⟨rateInv, rateInv * OPN_PRICE_USD, rate⟩
        ⟨1, OPN_PRICE_USD, 1⟩
        amt1In (amt1In * OPN_PRICE_USD))
    else if isToken0WOPN then do
      let rateInv ← cdiv 1 rate
      pure (finish ⟨1, OPN_PRICE_USD, 1⟩
        ⟨rate, rate * OPN_PRICE_USD, rateInv⟩
        amt0Out (amt0Out * OPN_PRICE_USD))
    else
      calculateNonWOPNPairPriceChecked token1 token0 amt1In amt0Out res1 res0
  else
    pure none

/-- PriceCalculator.calculatePriceImpact: fee-adjusted constant-product
output, execution price against spot price, returned as an absolute
percentage. -/
def calculatePriceImpact (amountIn reserveIn reserveOut : ℚ) : ℚ :=
  let amountInWithFee := amountIn * 997
  let numerator := amountInWithFee * reserveOut
  let denominator := reserveIn * 1000 + amountInWithFee
  let amountOut := numerator / denominator
  let executionPrice := amountOut / amountIn
  let spotPrice := reserveOut / reserveIn
  let priceImpact := (spotPrice - executionPrice) / spotPrice * 100
  |priceImpact|

end PriceCalculator

namespace PriceCalculatorEnhanced

/-- The designated quote asset address, as in PriceCalculatorEnhanced. -/
def WOPN_ADDRESS : String := toLowerStr "0xBc022C9dEb5AF250A526321d16Ef52E39b4DBD84"

/-- Fixed fiat price of the quote asset: 0.05 USD. -/
def OPN_PRICE_USD : ℚ := 5 / 100

/-- PriceCalculatorEnhanced.isStablecoin: the enhanced variant has no
known stablecoin addresses and always answers false. -/
def isStablecoin (_tokenAddress : String) : Bool := false

/-- PriceCalculatorEnhanced.calculateFallbackPrice: pricing for
non-WOPN pairs when no database connection is available. -/
def calculateFallbackPrice (tokenA tokenB : String)
    (amountAIn amountBOut reserveA reserveB : ℚ) : Option PriceUpdate :=
  let rate := amountBOut / amountAIn
  let tokenAIsStable := isStablecoin tokenA
  let tokenBIsStable := isStablecoin tokenB
  if tokenAIsStable then
    let tokenAPrice : TokenPrice := ⟨1 / OPN_PRICE_USD, 1, OPN_PRICE_USD⟩
    let tokenBPrice : TokenPrice := ⟨(1 / rate) / OPN_PRICE_USD, 1 / rate, rate⟩
    let volumeUSD := amountAIn * 1
    let liquidityUSD := reserveA * tokenAPrice.priceInUSD + reserveB * tokenBPrice.priceInUSD
    some { token0Price := tokenAPrice
           token1Price := tokenBPrice
           volume24h := volumeUSD / OPN_PRICE_USD
           volumeUSD24h := volumeUSD
           priceChange24h := 0
           liquidity := liquidityUSD / OPN_PRICE_USD
           liquidityUSD := liquidityUSD
           txCount24h := 1
           marketCap := 0
           fdv := 0 }
  else if tokenBIsStable then
    let tokenBPrice : TokenPrice := ⟨1 / OPN_PRICE_USD, 1, OPN_PRICE_USD⟩
    let tokenAPrice : TokenPrice := ⟨rate / OPN_PRICE_USD, rate, 1 / rate⟩
    let volumeUSD := amountAIn * rate
    let liquidityUSD := reserveA * tokenAPrice.priceInUSD + reserveB * tokenBPrice.priceInUSD
    some { token0Price := tokenAPrice
           token1Price := tokenBPrice
           volume24h := volumeUSD / OPN_PRICE_USD
           volumeUSD24h := volumeUSD
           priceChange24h := 0
           liquidity := liquidityUSD / OPN_PRICE_USD
           liquidityUSD := liquidityUSD
           txCount24h := 1
           marketCap := 0
           fdv := 0 }
  else
    some { token0Price := ⟨0, 0, rate⟩
           token1Price := ⟨0, 0, 1 / rate⟩
           volume24h := 0
           volumeUSD24h := 0
           priceChange24h := 0
           liquidity := 0
           liquidityUSD := 0
           txCount24h := 1
           marketCap := 0
           fdv := 0 }

/-- PriceCalculatorEnhanced.calculateSwapPrice invoked without a
database connection, so that the non-WOPN branch takes the
calculateFallbackPrice path; the WOPN direct branches are identical to
the database-backed call. -/
def calculateSwapPriceNoDb (token0 token1 : String)
    (amount0In amount1In amount0Out amount1Out reserve0 reserve1 : ℕ) :
    Option PriceUpdate :=
  let isToken0WOPN := toLowerStr token0 == WOPN_ADDRESS
  let isToken1WOPN := toLowerStr token1 == WOPN_ADDRESS
  let amt0In : ℚ := (amount0In : ℚ) / 10 ^ 18
  let amt1In : ℚ := (amount1In : ℚ) / 10 ^ 18
  let amt0Out : ℚ := (amount0Out : ℚ) / 10 ^ 18
  let amt1Out : ℚ := (amount1Out : ℚ) / 10 ^ 18
  let res0 : ℚ := (reserve0 : ℚ) / 10 ^ 18
  let res1 : ℚ := (reserve1 : ℚ) / 10 ^ 18
  let liquidityInOPN : ℚ :=
    if isToken0WOPN then res0 * 2 else if isToken1WOPN then res1 * 2 else 0
  let liquidityUSD := liquidityInOPN * OPN_PRICE_USD
  let finish := fun (token0Price token1Price : TokenPrice)
      (volumeInOPN volumeInUSD : ℚ) =>
    some { token0Price := token0Price
           token1Price := token1Price
           volume24h := volumeInOPN
           volumeUSD24h := volumeInUSD
           priceChange24h := 0
           liquidity := liquidityInOPN
           liquidityUSD := liquidityUSD
           txCount24h := 1
           marketCap := 0
           fdv := 0 }
  if amt0In > 0 ∧ amt1Out > 0 then
    let rate := amt1Out / amt0In
    if isToken0WOPN then
      finish ⟨1, OPN_PRICE_USD, 1⟩
        ⟨1 / rate, (1 / rate) * OPN_PRICE_USD, rate⟩
        amt0In (amt0In * OPN_PRICE_USD)
    else if isToken1WOPN then
      finish ⟨rate, rate * OPN_PRICE_USD, 1 / rate⟩
        ⟨1, OPN_PRICE_USD, 1⟩
        amt1Out (amt1Out * OPN_PRICE_USD)
    else
      calculateFallbackPrice token0 token1 amt0In amt1Out res0 res1
  else if amt1In > 0 ∧ amt0Out > 0 then
    let rate := amt0Out / amt1In
    if isToken1WOPN then
      finish ⟨1 / rate, (1 / rate) * OPN_PRICE_USD, rate⟩
        ⟨1, OPN_PRICE_USD, 1⟩
        amt1In (amt1In * OPN_PRICE_USD)
    else if isToken0WOPN then
      finish ⟨1, OPN_PRICE_USD, 1⟩
        ⟨rate, rate * OPN_PRICE_USD, 1 / rate⟩
        amt0Out (amt0Out * OPN_PRICE_USD)
    else
      calculateFallbackPrice token1 token0 amt1In amt0Out res1 res0
  else
    none

/-- Division-instrumented variant of calculateFallbackPrice. -/
def calculateFallbackPriceChecked (tokenA tokenB : String)
    (amountAIn amountBOut reserveA reserveB : ℚ) : Option (Option PriceUpdate) := do
  let rate ← cdiv amountBOut amountAIn
  let tokenAIsStable := isStablecoin tokenA
  let tokenBIsStable := isStablecoin tokenB
  if tokenAIsStable then do
    let stableOPN ← cdiv 1 OPN_PRICE_USD
    let rateInv ← cdiv 1 rate
    let otherOPN ← cdiv rateInv OPN_PRICE_USD
    let tokenAPrice : TokenPrice := ⟨stableOPN, 1, OPN_PRICE_USD⟩
    let tokenBPrice : TokenPrice := ⟨otherOPN, rateInv, rate⟩
    let volumeUSD := amountAIn * 1
    let liquidityUSD := reserveA * tokenAPrice.priceInUSD + reserveB * tokenBPrice.priceInUSD
    let volOPN ← cdiv volumeUSD OPN_PRICE_USD
    let liqOPN ← cdiv liquidityUSD OPN_PRICE_USD
    pure (some { token0Price := tokenAPrice
                 token1Price := tokenBPrice
                 volume24h := volOPN
                 volumeUSD24h := volumeUSD
                 priceChange24h := 0
                 liquidity := liqOPN
                 liquidityUSD := liquidityUSD
                 txCount24h := 1
                 marketCap := 0
                 fdv := 0 })
  else if tokenBIsStable then do
    let stableOPN ← cdiv 1 OPN_PRICE_USD
    let rateOPN ← cdiv rate OPN_PRICE_USD
    let rateInv ← cdiv 1 rate
    let tokenBPrice : TokenPrice := ⟨stableOPN, 1, OPN_PRICE_USD⟩
    let tokenAPrice : TokenPrice := ⟨rateOPN, rate, rateInv⟩
    let volumeUSD := amountAIn * rate
    let liquidityUSD := reserveA * tokenAPrice.priceInUSD + reserveB * tokenBPrice.priceInUSD
    let volOPN ← cdiv volumeUSD OPN_PRICE_USD
    let liqOPN ← cdiv liquidityUSD OPN_PRICE_USD
    pure (some { token0Price := tokenAPrice
                 token1Price := tokenBPrice
                 volume24h := volOPN
                 volumeUSD24h := volumeUSD
                 priceChange24h := 0
                 liquidity := liqOPN
                 liquidityUSD := liquidityUSD
                 txCount24h := 1
                 marketCap := 0
                 fdv := 0 })
  else do
    let rateInv ← cdiv 1 rate
    pure (some { token0Price := ⟨0, 0, rate⟩
                 token1Price := ⟨0, 0, rateInv⟩
                 volume24h := 0
                 volumeUSD24h := 0
                 priceChange24h := 0
                 liquidity := 0
                 liquidityUSD := 0
                 txCount24h := 1
                 marketCap := 0
                 fdv := 0 })

/-- Division-instrumented variant of calculateSwapPriceNoDb. -/
def calculateSwapPriceNoDbChecked (token0 token1 : String)
    (amount0In amount1In amount0Out amount1Out reserve0 reserve1 : ℕ) :
    Option (Option PriceUpdate) :=
  let isToken0WOPN := toLowerStr token0 == WOPN_ADDRESS
  let isToken1WOPN := toLowerStr token1 == WOPN_ADDRESS
  let amt0In : ℚ := (amount0In : ℚ) / 10 ^ 18
  let amt1In : ℚ := (amount1In : ℚ) / 10 ^ 18
  let amt0Out : ℚ := (amount0Out : ℚ) / 10 ^ 18
  let amt1Out : ℚ := (amount1Out : ℚ) / 10 ^ 18
  let res0 : ℚ := (reserve0 : ℚ) / 10 ^ 18
  let res1 : ℚ := (reserve1 : ℚ) / 10 ^ 18
  let liquidityInOPN : ℚ :=
    if isToken0WOPN then res0 * 2 else if isToken1WOPN then res1 * 2 else 0
  let liquidityUSD := liquidityInOPN * OPN_PRICE_USD
  let finish := fun (token0Price token1Price : TokenPrice)
      (volumeInOPN volumeInUSD : ℚ) =>
    some { token0Price := token0Price
           token1Price := token1Price
           volume24h := volumeInOPN
           volumeUSD24h := volumeInUSD
           priceChange24h := 0
           liquidity := liquidityInOPN
           liquidityUSD := liquidityUSD
           txCount24h := 1
           marketCap := 0
           fdv := 0 }
  if amt0In > 0 ∧ amt1Out > 0 then do
    let rate ← cdiv amt1Out amt0In
    if isToken0WOPN then do
      let rateInv ← cdiv 1 rate
      pure (finish ⟨1, OPN_PRICE_USD, 1⟩
        ⟨rateInv, rateInv * OPN_PRICE_USD, rate⟩
        amt0In (amt0In * OPN_PRICE_USD))
    else if isToken1WOPN then do
      let rateInv ← cdiv 1 rate
      pure (finish ⟨rate, rate * OPN_PRICE_USD, rateInv⟩
        ⟨1, OPN_PRICE_USD, 1⟩
        amt1Out (amt1Out * OPN_PRICE_USD))
    else
      calculateFallbackPriceChecked token0 token1 amt0In amt1Out res0 res1
  else if amt1In > 0 ∧ amt0Out > 0 then do
    let rate ← cdiv amt0Out amt1In
    if isToken1WOPN then do
      let rateInv ← cdiv 1 rate
      pure (finish ⟨rateInv, rateInv * OPN_PRICE_USD, rate⟩
        ⟨1, OPN_PRICE_USD, 1⟩
        amt1In (amt1In * OPN_PRICE_USD))
    else if isToken0WOPN then do
      let rateInv ← cdiv 1 rate
      pure (finish ⟨1, OPN_PRICE_USD, 1⟩
        ⟨rate, rate * OPN_PRICE_USD, rateInv⟩
        amt0Out (amt0Out * OPN_PRICE_USD))
    else
      calculateFallbackPriceChecked token1 token0 amt1In amt0Out res1 res0
  else
    pure none

/-- PriceCalculatorEnhanced.calculatePriceImpact: guards degenerate
reserves, computes the fee-adjusted output, but returns the input to
reserve ratio as a percentage. -/
def calculatePriceImpact (amountIn reserveIn reserveOut : ℚ) : ℚ :=
  if reserveIn = 0 ∨ reserveOut = 0 then 0
  else
    let amountInWithFee := amountIn * (997 / 1000)
    let _amountOut := amountInWithFee * reserveOut / (reserveIn + amountInWithFee)
    let priceImpact := amountIn / reserveIn * 100
    priceImpact

/-- Division-instrumented variant of the enhanced calculatePriceImpact:
on the degenerate-reserve guard no division site is reached at all. -/
def calculatePriceImpactChecked (amountIn reserveIn reserveOut : ℚ) : Option ℚ :=
  if reserveIn = 0 ∨ reserveOut = 0 then some 0
  else do
    let amountInWithFee := amountIn * (997 / 1000)
    let _amountOut ← cdiv (amountInWithFee * reserveOut) (reserveIn + amountInWithFee)
    let ratio ← cdiv amountIn reserveIn
    pure (ratio * 100)

end PriceCalculatorEnhanced

/-- Price impact as worded by the specification (for claim C4): the
absolute difference between spot price and execution price, divided by
the spot price, where the execution price applies the fixed 0.3
percent proportional fee to the input amount before the
constant-product division.  This definition follows the spec text, not
the source, and exists to be compared against the two source
implementations. -/
def priceImpactSpec (amountIn reserveIn reserveOut : ℚ) : ℚ :=
  let amountInWithFee := amountIn * (997 / 1000)
  let amountOut := amountInWithFee * reserveOut / (reserveIn + amountInWithFee)
  let executionPrice := amountOut / amountIn
  let spotPrice := reserveOut / reserveIn
  |spotPrice - executionPrice| / spotPrice

section PriceTheorems

/-- The two source classes pin the same quote asset address. -/
theorem wopn_addr_eq : PriceCalculatorEnhanced.WOPN_ADDRESS = PriceCalculator.WOPN_ADDRESS := rfl

/-- Fiat price pair extracted from an optional swap price result. -/
def fiatPrices (o : Option PriceUpdate) : Option (ℚ × ℚ) :=
  o.map (fun r => (r.token0Price.priceInUSD, r.token1Price.priceInUSD))

theorem scaled_pos (n : ℕ) : ((0:ℚ) < (n:ℚ) / 10 ^ 18) ↔ 0 < n := by
  constructor
  · intro h
    rcases Nat.eq_zero_or_pos n with h0 | h0
    · simp [h0] at h
    · exact h0
  · intro h
    have : (0:ℚ) < (n:ℚ) := by exact_mod_cast h
    positivity

theorem scaled_div (a b : ℕ) (hb : ((b:ℚ)) ≠ 0) :
    ((a:ℚ) / 10 ^ 18) / ((b:ℚ) / 10 ^ 18) = (a:ℚ) / (b:ℚ) := by
  field_simp

theorem nonWOPN_checked_eq (tokenA tokenB : String) {aIn bOut : ℚ} (rA rB : ℚ)
    (hA : 0 < aIn) (hB : 0 < bOut) :
    PriceCalculator.calculateNonWOPNPairPriceChecked tokenA tokenB aIn bOut rA rB
      = some (PriceCalculator.calculateNonWOPNPairPrice tokenA tokenB aIn bOut rA rB) := by
  have hA' : aIn ≠ 0 := ne_of_gt hA
  have hrate : bOut / aIn ≠ 0 := ne_of_gt (div_pos hB hA)
  have hOPN : PriceCalculator.OPN_PRICE_USD ≠ 0 := by
    norm_num [PriceCalculator.OPN_PRICE_USD]
  simp only [PriceCalculator.calculateNonWOPNPairPriceChecked,
    PriceCalculator.calculateNonWOPNPairPrice,
    cdiv_of_ne_zero hA', cdiv_of_ne_zero hrate, cdiv_of_ne_zero hOPN]
  cases hs : PriceCalculator.isStablecoin tokenA <;>
    cases ht : PriceCalculator.isStablecoin tokenB <;>
      simp [cdiv_of_ne_zero, hrate, hOPN, Option.bind]

theorem fallback_checked_eq (tokenA tokenB : String) {aIn bOut : ℚ} (rA rB : ℚ)
    (hA : 0 < aIn) (hB : 0 < bOut) :
    PriceCalculatorEnhanced.calculateFallbackPriceChecked tokenA tokenB aIn bOut rA rB
      = some (PriceCalculatorEnhanced.calculateFallbackPrice tokenA tokenB aIn bOut rA rB) := by
  have hA' : aIn ≠ 0 := ne_of_gt hA
  have hrate : bOut / aIn ≠ 0 := ne_of_gt (div_pos hB hA)
  simp [PriceCalculatorEnhanced.calculateFallbackPriceChecked,
    PriceCalculatorEnhanced.calculateFallbackPrice,
    PriceCalculatorEnhanced.isStablecoin,
    cdiv_of_ne_zero hA', cdiv_of_ne_zero hrate, Option.bind]

theorem checked_eq_base (token0 token1 : String)
    (a0In a1In a0Out a1Out r0 r1 : ℕ) :
    PriceCalculator.calculateSwapPriceChecked token0 token1 a0In a1In a0Out a1Out r0 r1
      = some (PriceCalculator.calculateSwapPrice token0 token1 a0In a1In a0Out a1Out r0 r1) := by
  by_cases h1 : ((0:ℚ) < (a0In:ℚ)/10^18 ∧ (0:ℚ) < (a1Out:ℚ)/10^18)
  · have hA' : ((a0In:ℚ)/10^18) ≠ 0 := ne_of_gt h1.1
    have hrate : ((a1Out:ℚ)/10^18) / ((a0In:ℚ)/10^18) ≠ 0 :=
      ne_of_gt (div_pos h1.2 h1.1)
    simp only [PriceCalculator.calculateSwapPriceChecked,
      PriceCalculator.calculateSwapPrice, if_pos h1,
      cdiv_of_ne_zero hA', cdiv_of_ne_zero hrate]
    cases hw0 : (toLowerStr token0 == PriceCalculator.WOPN_ADDRESS) <;>
      cases hw1 : (toLowerStr token1 == PriceCalculator.WOPN_ADDRESS) <;>
        simp [Option.bind, cdiv_of_ne_zero hrate, one_div, inv_div,
          nonWOPN_checked_eq _ _ _ _ h1.1 h1.2]
  · by_cases h2 : ((0:ℚ) < (a1In:ℚ)/10^18 ∧ (0:ℚ) < (a0Out:ℚ)/10^18)
    · have hA' : ((a1In:ℚ)/10^18) ≠ 0 := ne_of_gt h2.1
      have hrate : ((a0Out:ℚ)/10^18) / ((a1In:ℚ)/10^18) ≠ 0 :=
        ne_of_gt (div_pos h2.2 h2.1)
      simp only [PriceCalculator.calculateSwapPriceChecked,
        PriceCalculator.calculateSwapPrice, if_neg h1, if_pos h2,
        cdiv_of_ne_zero hA', cdiv_of_ne_zero hrate]
      cases hw0 : (toLowerStr token0 == PriceCalculator.WOPN_ADDRESS) <;>
        cases hw1 : (toLowerStr token1 == PriceCalculator.WOPN_ADDRESS) <;>
          simp [Option.bind, cdiv_of_ne_zero hrate, one_div, inv_div,
            nonWOPN_checked_eq _ _ _ _ h2.1 h2.2]
    · simp only [PriceCalculator.calculateSwapPriceChecked,
        PriceCalculator.calculateSwapPrice, if_neg h1, if_neg h2]
      rfl

theorem checked_eq_enhanced (token0 token1 : String)
    (a0In a1In a0Out a1Out r0 r1 : ℕ) :
    PriceCalculatorEnhanced.calculateSwapPriceNoDbChecked token0 token1 a0In a1In a0Out a1Out r0 r1
      = some (PriceCalculatorEnhanced.calculateSwapPriceNoDb token0 token1 a0In a1In a0Out a1Out r0 r1) := by
  by_cases h1 : ((0:ℚ) < (a0In:ℚ)/10^18 ∧ (0:ℚ) < (a1Out:ℚ)/10^18)
  · have hA' : ((a0In:ℚ)/10^18) ≠ 0 := ne_of_gt h1.1
    have hrate : ((a1Out:ℚ)/10^18) / ((a0In:ℚ)/10^18) ≠ 0 :=
      ne_of_gt (div_pos h1.2 h1.1)
    simp only [PriceCalculatorEnhanced.calculateSwapPriceNoDbChecked,
      PriceCalculatorEnhanced.calculateSwapPriceNoDb, if_pos h1,
      cdiv_of_ne_zero hA', cdiv_of_ne_zero hrate]
    cases hw0 : (toLowerStr token0 == PriceCalculatorEnhanced.WOPN_ADDRESS) <;>
      cases hw1 : (toLowerStr token1 == PriceCalculatorEnhanced.WOPN_ADDRESS) <;>
        simp [Option.bind, cdiv_of_ne_zero hrate, one_div, inv_div,
          fallback_checked_eq _ _ _ _ h1.1 h1.2]
  · by_cases h2 : ((0:ℚ) < (a1In:ℚ)/10^18 ∧ (0:ℚ) < (a0Out:ℚ)/10^18)
    · have hA' : ((a1In:ℚ)/10^18) ≠ 0 := ne_of_gt h2.1
      have hrate : ((a0Out:ℚ)/10^18) / ((a1In:ℚ)/10^18) ≠ 0 :=
        ne_of_gt (div_pos h2.2 h2.1)
      simp only [PriceCalculatorEnhanced.calculateSwapPriceNoDbChecked,
        PriceCalculatorEnhanced.calculateSwapPriceNoDb, if_neg h1, if_pos h2,
        cdiv_of_ne_zero hA', cdiv_of_ne_zero hrate]
      cases hw0 : (toLowerStr token0 == PriceCalculatorEnhanced.WOPN_ADDRESS) <;>
        cases hw1 : (toLowerStr token1 == PriceCalculatorEnhanced.WOPN_ADDRESS) <;>
          simp [Option.bind, cdiv_of_ne_zero hrate, one_div, inv_div,
            fallback_checked_eq _ _ _ _ h2.1 h2.2]
    · simp only [PriceCalculatorEnhanced.calculateSwapPriceNoDbChecked,
        PriceCalculatorEnhanced.calculateSwapPriceNoDb, if_neg h1, if_neg h2]
      rfl

end PriceTheorems

/-- Claim C3: for every direct swap in which exactly one of the pair's
tokens is the quote asset WOPN, both swap price resolvers return a
result whose fiat price for the quote token is exactly the fixed
0.05 USD and whose fiat price for the non-quote token is the
execution ratio, oriented quote-per-token, times that fixed price.
Stated for all four combinations of quote side and swap direction;
the opposite-direction cases carry the exclusivity hypothesis that
the first direction's amounts are not both positive, as in the
source's branch order. -/
theorem claim_C3 (token0 token1 : String) (a0In a1In a0Out a1Out r0 r1 : ℕ) :
    (toLowerStr token0 = PriceCalculator.WOPN_ADDRESS →
     toLowerStr token1 ≠ PriceCalculator.WOPN_ADDRESS →
     0 < a0In → 0 < a1Out →
       fiatPrices (PriceCalculator.calculateSwapPrice token0 token1 a0In a1In a0Out a1Out r0 r1)
         = some (PriceCalculator.OPN_PRICE_USD,
                 ((a0In : ℚ) / (a1Out : ℚ)) * PriceCalculator.OPN_PRICE_USD) ∧
       fiatPrices (PriceCalculatorEnhanced.calculateSwapPriceNoDb token0 token1 a0In a1In a0Out a1Out r0 r1)
         = some (PriceCalculator.OPN_PRICE_USD,
                 ((a0In : ℚ) / (a1Out : ℚ)) * PriceCalculator.OPN_PRICE_USD)) ∧
    (toLowerStr token0 = PriceCalculator.WOPN_ADDRESS →
     toLowerStr token1 ≠ PriceCalculator.WOPN_ADDRESS →
     0 < a1In → 0 < a0Out → (a0In = 0 ∨ a1Out = 0) →
       fiatPrices (PriceCalculator.calculateSwapPrice token0 token1 a0In a1In a0Out a1Out r0 r1)
         = some (PriceCalculator.OPN_PRICE_USD,
                 ((a0Out : ℚ) / (a1In : ℚ)) * PriceCalculator.OPN_PRICE_USD) ∧
       fiatPrices (PriceCalculatorEnhanced.calculateSwapPriceNoDb token0 token1 a0In a1In a0Out a1Out r0 r1)
         = some (PriceCalculator.OPN_PRICE_USD,
                 ((a0Out : ℚ) / (a1In : ℚ)) * PriceCalculator.OPN_PRICE_USD)) ∧
    (toLowerStr token0 ≠ PriceCalculator.WOPN_ADDRESS →
     toLowerStr token1 = PriceCalculator.WOPN_ADDRESS →
     0 < a0In → 0 < a1Out →
       fiatPrices (PriceCalculator.calculateSwapPrice token0 token1 a0In a1In a0Out a1Out r0 r1)
         = some (((a1Out : ℚ) / (a0In : ℚ)) * PriceCalculator.OPN_PRICE_USD,
                 PriceCalculator.OPN_PRICE_USD) ∧
       fiatPrices (PriceCalculatorEnhanced.calculateSwapPriceNoDb token0 token1 a0In a1In a0Out a1Out r0 r1)
         = some (((a1Out : ℚ) / (a0In : ℚ)) * PriceCalculator.OPN_PRICE_USD,
                 PriceCalculator.OPN_PRICE_USD)) ∧
    (toLowerStr token0 ≠ PriceCalculator.WOPN_ADDRESS →
     toLowerStr token1 = PriceCalculator.WOPN_ADDRESS →
     0 < a1In → 0 < a0Out → (a0In = 0 ∨ a1Out = 0) →
       fiatPrices (PriceCalculator.calculateSwapPrice token0 token1 a0In a1In a0Out a1Out r0 r1)
         = some (((a1In : ℚ) / (a0Out : ℚ)) * PriceCalculator.OPN_PRICE_USD,
                 PriceCalculator.OPN_PRICE_USD) ∧
       fiatPrices (PriceCalculatorEnhanced.calculateSwapPriceNoDb token0 token1 a0In a1In a0Out a1Out r0 r1)
         = some (((a1In : ℚ) / (a0Out : ℚ)) * PriceCalculator.OPN_PRICE_USD,
                 PriceCalculator.OPN_PRICE_USD)) := by
  refine ⟨?_, ?_, ?_, ?_⟩
  · intro h0 h1 hIn hOut
    have ha : (0:ℚ) < (a0In:ℚ)/10^18 := (scaled_pos a0In).mpr hIn
    have hb : (0:ℚ) < (a1Out:ℚ)/10^18 := (scaled_pos a1Out).mpr hOut
    have hcond : ((0:ℚ) < (a0In:ℚ)/10^18 ∧ (0:ℚ) < (a1Out:ℚ)/10^18) := ⟨ha, hb⟩
    have hratio : (1:ℚ) / ((a1Out:ℚ)/10^18 / ((a0In:ℚ)/10^18)) = (a0In:ℚ)/(a1Out:ℚ) := by
      rw [one_div, inv_div, scaled_div _ _ (ne_of_gt (by exact_mod_cast hOut))]
    constructor <;>
      simp [fiatPrices, PriceCalculator.calculateSwapPrice,
        PriceCalculatorEnhanced.calculateSwapPriceNoDb, wopn_addr_eq, h0, h1, hcond,
        PriceCalculatorEnhanced.OPN_PRICE_USD, PriceCalculator.OPN_PRICE_USD, hratio]
  · intro h0 h1 hIn hOut hexcl
    have ha : (0:ℚ) < (a1In:ℚ)/10^18 := (scaled_pos a1In).mpr hIn
    have hb : (0:ℚ) < (a0Out:ℚ)/10^18 := (scaled_pos a0Out).mpr hOut
    have hnot : ¬((0:ℚ) < (a0In:ℚ)/10^18 ∧ (0:ℚ) < (a1Out:ℚ)/10^18) := by
      rintro ⟨hx, hy⟩
      rcases hexcl with h | h
      · rw [(scaled_pos a0In)] at hx
        omega
      · rw [(scaled_pos a1Out)] at hy
        omega
    have hnotN : ¬(0 < a0In ∧ 0 < a1Out) := by omega
    have hcond : ((0:ℚ) < (a1In:ℚ)/10^18 ∧ (0:ℚ) < (a0Out:ℚ)/10^18) := ⟨ha, hb⟩
    have hratio : ((a0Out:ℚ)/10^18) / ((a1In:ℚ)/10^18) = (a0Out:ℚ)/(a1In:ℚ) :=
      scaled_div _ _ (ne_of_gt (by exact_mod_cast hIn))
    constructor <;>
      simp [fiatPrices, PriceCalculator.calculateSwapPrice,
        PriceCalculatorEnhanced.calculateSwapPriceNoDb, wopn_addr_eq, h0, h1, hnot, hnotN, hcond,
        PriceCalculatorEnhanced.OPN_PRICE_USD, PriceCalculator.OPN_PRICE_USD, hratio]
  · intro h0 h1 hIn hOut
    have ha : (0:ℚ) < (a0In:ℚ)/10^18 := (scaled_pos a0In).mpr hIn
    have hb : (0:ℚ) < (a1Out:ℚ)/10^18 := (scaled_pos a1Out).mpr hOut
    have hcond : ((0:ℚ) < (a0In:ℚ)/10^18 ∧ (0:ℚ) < (a1Out:ℚ)/10^18) := ⟨ha, hb⟩
    have hratio : ((a1Out:ℚ)/10^18) / ((a0In:ℚ)/10^18) = (a1Out:ℚ)/(a0In:ℚ) :=
      scaled_div _ _ (ne_of_gt (by exact_mod_cast hIn))
    constructor <;>
      simp [fiatPrices, PriceCalculator.calculateSwapPrice,
        PriceCalculatorEnhanced.calculateSwapPriceNoDb, wopn_addr_eq, h0, h1, hcond,
        PriceCalculatorEnhanced.OPN_PRICE_USD, PriceCalculator.OPN_PRICE_USD, hratio]
  · intro h0 h1 hIn hOut hexcl
    have ha : (0:ℚ) < (a1In:ℚ)/10^18 := (scaled_pos a1In).mpr hIn
    have hb : (0:ℚ) < (a0Out:ℚ)/10^18 := (scaled_pos a0Out).mpr hOut
    have hnot : ¬((0:ℚ) < (a0In:ℚ)/10^18 ∧ (0:ℚ) < (a1Out:ℚ)/10^18) := by
      rintro ⟨hx, hy⟩
      rcases hexcl with h | h
      · rw [(scaled_pos a0In)] at hx
        omega
      · rw [(scaled_pos a1Out)] at hy
        omega
    have hnotN : ¬(0 < a0In ∧ 0 < a1Out) := by omega
    have hcond : ((0:ℚ) < (a1In:ℚ)/10^18 ∧ (0:ℚ) < (a0Out:ℚ)/10^18) := ⟨ha, hb⟩
    have hratio : (1:ℚ) / ((a0Out:ℚ)/10^18 / ((a1In:ℚ)/10^18)) = (a1In:ℚ)/(a0Out:ℚ) := by
      rw [one_div, inv_div, scaled_div _ _ (ne_of_gt (by exact_mod_cast hOut))]
    constructor <;>
      simp [fiatPrices, PriceCalculator.calculateSwapPrice,
        PriceCalculatorEnhanced.calculateSwapPriceNoDb, wopn_addr_eq, h0, h1, hnot, hnotN, hcond,
        PriceCalculatorEnhanced.OPN_PRICE_USD, PriceCalculator.OPN_PRICE_USD, hratio]

/-- Witness for claim C3, the spec's scenario 1: pair of WOPN against
another token, one WOPN swapped in, 9.97 tokens out; the non-quote
token's fiat price is the fixed quote price scaled by 1 over 9.97,
that is 5 over 997 USD. -/
theorem claim_C3_witness :
    (fiatPrices (PriceCalculator.calculateSwapPrice
        "0xBc022C9dEb5AF250A526321d16Ef52E39b4DBD84"
        "0x1234567890123456789012345678901234567890"
        (10 ^ 18) 0 0 (997 * 10 ^ 16) (1000 * 10 ^ 18) (10000 * 10 ^ 18))
      = some (PriceCalculator.OPN_PRICE_USD,
              (((10 ^ 18 : ℕ) : ℚ) / ((997 * 10 ^ 16 : ℕ) : ℚ)) * PriceCalculator.OPN_PRICE_USD) ∧
     fiatPrices (PriceCalculatorEnhanced.calculateSwapPriceNoDb
        "0xBc022C9dEb5AF250A526321d16Ef52E39b4DBD84"
        "0x1234567890123456789012345678901234567890"
        (10 ^ 18) 0 0 (997 * 10 ^ 16) (1000 * 10 ^ 18) (10000 * 10 ^ 18))
      = some (PriceCalculator.OPN_PRICE_USD,
              (((10 ^ 18 : ℕ) : ℚ) / ((997 * 10 ^ 16 : ℕ) : ℚ)) * PriceCalculator.OPN_PRICE_USD)) ∧
    (((10 ^ 18 : ℕ) : ℚ) / ((997 * 10 ^ 16 : ℕ) : ℚ)) * PriceCalculator.OPN_PRICE_USD = 5 / 997 := by
  refine ⟨(claim_C3 "0xBc022C9dEb5AF250A526321d16Ef52E39b4DBD84"
      "0x1234567890123456789012345678901234567890"
      (10 ^ 18) 0 0 (997 * 10 ^ 16) (1000 * 10 ^ 18) (10000 * 10 ^ 18)).1
      (by decide) (by decide) (by norm_num) (by norm_num), ?_⟩
  norm_num [PriceCalculator.OPN_PRICE_USD]

/-- Counterexample to claim C4 as stated: at input amount 1 with
reserves 1000 and 1000, neither implementation returns the spec's
quantity, the absolute spot minus execution difference over spot.
The base class returns that quantity times 100 (a percentage), and
the enhanced class returns input over reserve times 100 instead. -/
theorem claim_C4_counterexample :
    PriceCalculator.calculatePriceImpact 1 1000 1000 ≠ priceImpactSpec 1 1000 1000 ∧
    PriceCalculatorEnhanced.calculatePriceImpact 1 1000 1000 ≠ priceImpactSpec 1 1000 1000 := by
  constructor <;>
    norm_num [PriceCalculator.calculatePriceImpact,
      PriceCalculatorEnhanced.calculatePriceImpact, priceImpactSpec, abs_of_nonneg]

/-- Claim C4 as amended: for positive input and reserves, the base
PriceCalculator.calculatePriceImpact returns exactly 100 times the
spec's ratio (it reports a percentage), while the enhanced
PriceCalculatorEnhanced.calculatePriceImpact ignores its fee-adjusted
constant-product output and returns the input to input-reserve ratio
times 100 instead. -/
theorem claim_C4 (amountIn reserveIn reserveOut : ℚ)
    (hIn : 0 < amountIn) (hRIn : 0 < reserveIn) (hROut : 0 < reserveOut) :
    PriceCalculator.calculatePriceImpact amountIn reserveIn reserveOut
      = 100 * priceImpactSpec amountIn reserveIn reserveOut ∧
    PriceCalculatorEnhanced.calculatePriceImpact amountIn reserveIn reserveOut
      = amountIn / reserveIn * 100 := by
  have hIn' : amountIn ≠ 0 := ne_of_gt hIn
  have hRIn' : reserveIn ≠ 0 := ne_of_gt hRIn
  have hROut' : reserveOut ≠ 0 := ne_of_gt hROut
  have hspot : (0:ℚ) < reserveOut / reserveIn := div_pos hROut hRIn
  constructor
  · simp only [PriceCalculator.calculatePriceImpact, priceImpactSpec]
    have hden : reserveIn * 1000 + amountIn * 997 ≠ 0 := by positivity
    have hden2 : reserveIn + amountIn * (997 / 1000) ≠ 0 := by positivity
    have hexec : amountIn * 997 * reserveOut / (reserveIn * 1000 + amountIn * 997) / amountIn
        = amountIn * (997 / 1000) * reserveOut / (reserveIn + amountIn * (997 / 1000)) / amountIn := by
      field_simp
    rw [hexec, abs_mul, abs_of_nonneg (by norm_num : (0:ℚ) ≤ 100), abs_div, abs_of_pos hspot]
    ring
  · simp [PriceCalculatorEnhanced.calculatePriceImpact, hRIn', hROut']

/-- Witness for the amended claim C4 at input 1 with reserves 1000
and 1000. -/
theorem claim_C4_witness :
    PriceCalculator.calculatePriceImpact 1 1000 1000 = 100 * priceImpactSpec 1 1000 1000 ∧
    PriceCalculatorEnhanced.calculatePriceImpact 1 1000 1000 = 1 / 1000 * 100 :=
  claim_C4 1 1000 1000 (by norm_num) (by norm_num) (by norm_num)

/-- Claim C5: a swap in which neither side has both a positive
in-amount and a positive out-amount resolves to null in both resolver
implementations, and on every input every division the two resolvers
perform has a nonzero denominator, witnessed by the checked variants
agreeing with the plain ones everywhere. -/
theorem claim_C5 (token0 token1 : String) (a0In a1In a0Out a1Out r0 r1 : ℕ) :
    (¬(0 < a0In ∧ 0 < a1Out) ∧ ¬(0 < a1In ∧ 0 < a0Out) →
      PriceCalculator.calculateSwapPrice token0 token1 a0In a1In a0Out a1Out r0 r1 = none ∧
      PriceCalculatorEnhanced.calculateSwapPriceNoDb token0 token1 a0In a1In a0Out a1Out r0 r1 = none) ∧
    PriceCalculator.calculateSwapPriceChecked token0 token1 a0In a1In a0Out a1Out r0 r1
      = some (PriceCalculator.calculateSwapPrice token0 token1 a0In a1In a0Out a1Out r0 r1) ∧
    PriceCalculatorEnhanced.calculateSwapPriceNoDbChecked token0 token1 a0In a1In a0Out a1Out r0 r1
      = some (PriceCalculatorEnhanced.calculateSwapPriceNoDb token0 token1 a0In a1In a0Out a1Out r0 r1) := by
  refine ⟨?_, checked_eq_base _ _ _ _ _ _ _ _, checked_eq_enhanced _ _ _ _ _ _ _ _⟩
  intro h
  have h1 : ¬((0:ℚ) < (a0In:ℚ)/10^18 ∧ (0:ℚ) < (a1Out:ℚ)/10^18) := by
    rintro ⟨hx, hy⟩
    exact h.1 ⟨(scaled_pos a0In).mp hx, (scaled_pos a1Out).mp hy⟩
  have h2 : ¬((0:ℚ) < (a1In:ℚ)/10^18 ∧ (0:ℚ) < (a0Out:ℚ)/10^18) := by
    rintro ⟨hx, hy⟩
    exact h.2 ⟨(scaled_pos a1In).mp hx, (scaled_pos a0Out).mp hy⟩
  constructor
  · simp only [PriceCalculator.calculateSwapPrice, if_neg h1, if_neg h2]
  · simp only [PriceCalculatorEnhanced.calculateSwapPriceNoDb, if_neg h1, if_neg h2]

/-- Witness for claim C5: the all-zero-amounts swap resolves to null
in both implementations. -/
theorem claim_C5_witness :
    PriceCalculator.calculateSwapPrice "0xaaaa" "0xbbbb" 0 0 0 0 1 1 = none ∧
    PriceCalculatorEnhanced.calculateSwapPriceNoDb "0xaaaa" "0xbbbb" 0 0 0 0 1 1 = none :=
  (claim_C5 "0xaaaa" "0xbbbb" 0 0 0 0 1 1).1 (by norm_num)

/-- Claim C10: the enhanced price-impact computation is total on
degenerate reserves; when either reserve is zero it returns 0, and the
checked variant confirms no division is performed on that path. -/
theorem claim_C10 (amountIn reserveIn reserveOut : ℚ)
    (h : reserveIn = 0 ∨ reserveOut = 0) :
    PriceCalculatorEnhanced.calculatePriceImpact amountIn reserveIn reserveOut = 0 ∧
    PriceCalculatorEnhanced.calculatePriceImpactChecked amountIn reserveIn reserveOut = some 0 := by
  constructor <;>
    simp [PriceCalculatorEnhanced.calculatePriceImpact,
      PriceCalculatorEnhanced.calculatePriceImpactChecked, h]

/-- Witness for claim C10 at input 5 with reserves 0 and 7. -/
theorem claim_C10_witness :
    PriceCalculatorEnhanced.calculatePriceImpact 5 0 7 = 0 ∧
    PriceCalculatorEnhanced.calculatePriceImpactChecked 5 0 7 = some 0 :=
  claim_C10 5 0 7 (Or.inl rfl)

namespace Candles

/-- The fixed timeframe set of startCandleGeneration. -/
def timeframes : List (String × ℕ) :=
  [("1m", 60), ("5m", 300), ("15m", 900), ("30m", 1800),
   ("1h", 3600), ("4h", 14400), ("1d", 86400), ("1w", 604800)]

/-- Bucket start used by generateCandles: floor of the timestamp over
the timeframe duration, times the duration. -/
def bucketStart (seconds ts : ℕ) : ℕ := ts / seconds * seconds

/-- The trade-selection window of the generateCandles query: timestamp
at least candleTime and strictly below candleTime plus duration. -/
def tradeInWindow (candleTime seconds ts : ℕ) : Bool :=
  decide (candleTime ≤ ts) && decide (ts < candleTime + seconds)

end Candles

/-- Claim C9: a trade selected into the generateCandles window of the
current bucket lies in the bucket determined by its own timestamp,
namely floor of the trade timestamp over the duration times the
duration; and trades at 10 and 70 seconds fall into the two distinct
one-minute buckets starting at 0 and at 60. -/
theorem claim_C9 (seconds now ts : ℕ)
    (h : Candles.tradeInWindow (Candles.bucketStart seconds now) seconds ts = true) :
    Candles.bucketStart seconds now = Candles.bucketStart seconds ts ∧
    Candles.bucketStart 60 10 = 0 ∧ Candles.bucketStart 60 70 = 60 ∧
    Candles.bucketStart 60 10 ≠ Candles.bucketStart 60 70 := by
  refine ⟨?_, by decide, by decide, by decide⟩
  simp only [Candles.tradeInWindow, Bool.and_eq_true, decide_eq_true_eq] at h
  simp only [Candles.bucketStart] at h ⊢
  have hq : ts / seconds = now / seconds := by
    apply Nat.div_eq_of_lt_le
    · exact h.1
    · calc ts < now / seconds * seconds + seconds := h.2
        _ = (now / seconds + 1) * seconds := by ring
  rw [hq]

/-- Witness for claim C9: a trade at 90 seconds observed while the
clock reads 70 seconds is selected into the window of the bucket at 60
and that bucket is the one its own timestamp determines. -/
theorem claim_C9_witness :
    Candles.bucketStart 60 70 = Candles.bucketStart 60 90 ∧
    Candles.bucketStart 60 10 = 0 ∧ Candles.bucketStart 60 70 = 60 ∧
    Candles.bucketStart 60 10 ≠ Candles.bucketStart 60 70 :=
  claim_C9 60 70 90 (by decide)

namespace Trades

/-- One row of the trades table, with the columns of the insert
statements of SwapProcessor.processSwap and
EnhancedDexIndexer.handleSwap. -/
structure TradeRow where
  blockNumber : ℕ
  transactionHash : String
  logIndex : ℕ
  timestamp : ℕ
  pairAddress : String
  token0Amount : ℤ
  token1Amount : ℤ
  amountInUsd : ℚ
  amountOutUsd : ℚ
  priceToken0Usd : ℚ
  priceToken1Usd : ℚ
  priceToken0Opn : ℚ
  priceToken1Opn : ℚ
  gasUsed : ℕ
  gasPrice : ℕ
  maker : String
  tradeType : String
  priceImpact : ℚ
deriving DecidableEq, Repr

/-- The unique key of the trades table: transaction hash and log index. -/
def tradeKey (r : TradeRow) : String × ℕ := (r.transactionHash, r.logIndex)

def hasKey (tbl : List TradeRow) (k : String × ℕ) : Bool :=
  tbl.any (fun a => decide (tradeKey a = k))

/-- The insert of SwapProcessor.processSwap: on a conflict of the
transaction-hash and log-index key the statement does nothing. -/
def insertOrIgnoreTrade (tbl : List TradeRow) (r : TradeRow) : List TradeRow :=
  if hasKey tbl (tradeKey r) then tbl else tbl ++ [r]

/-- The conflict action of EnhancedDexIndexer.handleSwap: overwrite
the two USD amount columns and the two USD price columns with the
excluded row's values, keeping all other columns. -/
def applyPriceUpdateRow (old new : TradeRow) : TradeRow :=
  { old with amountInUsd := new.amountInUsd
             amountOutUsd := new.amountOutUsd
             priceToken0Usd := new.priceToken0Usd
             priceToken1Usd := new.priceToken1Usd }

/-- The insert of EnhancedDexIndexer.handleSwap: on a key conflict the
statement updates the four USD columns of the stored row. -/
def upsertTrade (tbl : List TradeRow) (r : TradeRow) : List TradeRow :=
  if hasKey tbl (tradeKey r) then
    tbl.map (fun old => if tradeKey old = tradeKey r then applyPriceUpdateRow old r else old)
  else tbl ++ [r]

/-- At most one row per key: every two rows of the table differ in key. -/
def uniqKeys (tbl : List TradeRow) : Prop :=
  tbl.Pairwise (fun a b => tradeKey a ≠ tradeKey b)

theorem tradeKey_applyPriceUpdateRow (old r : TradeRow) :
    tradeKey (applyPriceUpdateRow old r) = tradeKey old := rfl

theorem hasKey_false_iff (tbl : List TradeRow) (k : String × ℕ) :
    hasKey tbl k = false ↔ ∀ a ∈ tbl, tradeKey a ≠ k := by
  simp [hasKey]

theorem tradeKey_upsertFun (r old : TradeRow) :
    tradeKey (if tradeKey old = tradeKey r then applyPriceUpdateRow old r else old)
      = tradeKey old := by
  by_cases h : tradeKey old = tradeKey r <;> simp [h, tradeKey_applyPriceUpdateRow]

theorem hasKey_map_upsertFun (tbl : List TradeRow) (r : TradeRow) (k : String × ℕ) :
    hasKey (tbl.map (fun old => if tradeKey old = tradeKey r then applyPriceUpdateRow old r else old)) k
      = hasKey tbl k := by
  simp [hasKey, List.any_map, Function.comp_def, tradeKey_upsertFun]

theorem uniqKeys_insertOrIgnore (tbl : List TradeRow) (r : TradeRow) (h : uniqKeys tbl) :
    uniqKeys (insertOrIgnoreTrade tbl r) := by
  unfold insertOrIgnoreTrade
  cases hk : hasKey tbl (tradeKey r)
  · rw [if_neg (by simp)]
    refine List.pairwise_append.mpr ⟨h, List.pairwise_singleton _ _, ?_⟩
    intro a ha b hb
    simp only [List.mem_singleton] at hb
    subst hb
    exact (hasKey_false_iff _ _).mp hk a ha
  · rw [if_pos rfl]
    exact h

theorem uniqKeys_upsert (tbl : List TradeRow) (r : TradeRow) (h : uniqKeys tbl) :
    uniqKeys (upsertTrade tbl r) := by
  unfold upsertTrade
  cases hk : hasKey tbl (tradeKey r)
  · rw [if_neg (by simp)]
    refine List.pairwise_append.mpr ⟨h, List.pairwise_singleton _ _, ?_⟩
    intro a ha b hb
    simp only [List.mem_singleton] at hb
    subst hb
    exact (hasKey_false_iff _ _).mp hk a ha
  · rw [if_pos rfl]
    refine List.Pairwise.map _ ?_ h
    intro a b hab
    simpa [tradeKey_upsertFun] using hab

theorem hasKey_insertOrIgnore_self (tbl : List TradeRow) (r : TradeRow) :
    hasKey (insertOrIgnoreTrade tbl r) (tradeKey r) = true := by
  unfold insertOrIgnoreTrade
  cases hk : hasKey tbl (tradeKey r)
  · rw [if_neg (by simp)]
    simp [hasKey]
  · rw [if_pos rfl]
    exact hk

theorem hasKey_upsert_self (tbl : List TradeRow) (r : TradeRow) :
    hasKey (upsertTrade tbl r) (tradeKey r) = true := by
  unfold upsertTrade
  cases hk : hasKey tbl (tradeKey r)
  · rw [if_neg (by simp)]
    simp [hasKey]
  · rw [if_pos rfl]
    rw [hasKey_map_upsertFun]
    exact hk

theorem insertOrIgnore_of_hasKey (tbl : List TradeRow) (r : TradeRow)
    (h : hasKey tbl (tradeKey r) = true) : insertOrIgnoreTrade tbl r = tbl := by
  unfold insertOrIgnoreTrade
  rw [if_pos h]

theorem upsert_length_of_hasKey (tbl : List TradeRow) (r : TradeRow)
    (h : hasKey tbl (tradeKey r) = true) : (upsertTrade tbl r).length = tbl.length := by
  unfold upsertTrade
  rw [if_pos h]
  exact List.length_map _ _

end Trades

/-- A stored trade row. -/
def cexTradeRow1 : Trades.TradeRow :=
  { blockNumber := 1, transactionHash := "0xabc", logIndex := 0, timestamp := 100,
    pairAddress := "0xpair", token0Amount := 1, token1Amount := -2,
    amountInUsd := 10, amountOutUsd := 10, priceToken0Usd := 1, priceToken1Usd := 2,
    priceToken0Opn := 20, priceToken1Opn := 40, gasUsed := 0, gasPrice := 0,
    maker := "0xmaker", tradeType := "buy", priceImpact := 0 }

/-- A replay of the same on-chain event, resolved after the pair's
reserves moved, so with different USD amount and price values but the
same transaction hash and log index. -/
def cexTradeRow2 : Trades.TradeRow :=
  { cexTradeRow1 with amountInUsd := 12, amountOutUsd := 12,
                      priceToken0Usd := 3, priceToken1Usd := 6 }

/-- Counterexample to claim C1 as stated: replaying an identical
on-chain event through EnhancedDexIndexer.handleSwap's conflict
action changes the stored trade's price_token0_usd column from 1 to
3, so the stored trade is not immutable and the insert is not
insert-or-ignore on that code path. -/
theorem claim_C1_counterexample :
    Trades.tradeKey cexTradeRow2 = Trades.tradeKey cexTradeRow1 ∧
    (Trades.upsertTrade [cexTradeRow1] cexTradeRow2).map (fun r => r.priceToken0Usd) = [3] ∧
    [cexTradeRow1].map (fun r => r.priceToken0Usd) = [1] ∧
    (3 : ℚ) ≠ 1 := by
  refine ⟨rfl, ?_, rfl, by norm_num⟩
  decide

/-- Claim C1 as amended: both trade insert statements keep at most one
stored row per transaction-hash and log-index key, and replaying an
event leaves the row count unchanged; the SwapProcessor.processSwap
path (insert-or-ignore) additionally leaves the stored table entirely
unchanged on replay, while the EnhancedDexIndexer.handleSwap path
rewrites the four USD columns of the stored row (see the
counterexample). -/
theorem claim_C1 (tbl : List Trades.TradeRow) (r r' : Trades.TradeRow)
    (huniq : Trades.uniqKeys tbl) (hkey : Trades.tradeKey r' = Trades.tradeKey r) :
    Trades.uniqKeys (Trades.insertOrIgnoreTrade tbl r) ∧
    Trades.uniqKeys (Trades.upsertTrade tbl r) ∧
    Trades.insertOrIgnoreTrade (Trades.insertOrIgnoreTrade tbl r) r'
      = Trades.insertOrIgnoreTrade tbl r ∧
    (Trades.upsertTrade (Trades.upsertTrade tbl r) r').length
      = (Trades.upsertTrade tbl r).length := by
  refine ⟨Trades.uniqKeys_insertOrIgnore _ _ huniq, Trades.uniqKeys_upsert _ _ huniq, ?_, ?_⟩
  · refine Trades.insertOrIgnore_of_hasKey _ _ ?_
    rw [hkey]
    exact Trades.hasKey_insertOrIgnore_self tbl r
  · refine Trades.upsert_length_of_hasKey _ _ ?_
    rw [hkey]
    exact Trades.hasKey_upsert_self tbl r

/-- Witness for the amended claim C1 on a one-row table and a replay
of its event. -/
theorem claim_C1_witness :
    Trades.uniqKeys (Trades.insertOrIgnoreTrade [cexTradeRow1] cexTradeRow2) ∧
    Trades.uniqKeys (Trades.upsertTrade [cexTradeRow1] cexTradeRow2) ∧
    Trades.insertOrIgnoreTrade (Trades.insertOrIgnoreTrade [cexTradeRow1] cexTradeRow2) cexTradeRow2
      = Trades.insertOrIgnoreTrade [cexTradeRow1] cexTradeRow2 ∧
    (Trades.upsertTrade (Trades.upsertTrade [cexTradeRow1] cexTradeRow2) cexTradeRow2).length
      = (Trades.upsertTrade [cexTradeRow1] cexTradeRow2).length :=
  claim_C1 [cexTradeRow1] cexTradeRow2 cexTradeRow2
    (by simp [Trades.uniqKeys]) rfl

namespace Candles

/-- The trade columns generateCandles aggregates over. -/
structure CandleTrade where
  timestamp : ℕ
  priceToken0Usd : ℚ
  priceToken0Opn : ℚ
  amountInUsd : ℚ
  token0Amount : ℤ
  token1Amount : ℤ
deriving DecidableEq, Repr

/-- One row of the candles table, with the columns of the
generateCandles insert. -/
structure CandleRow where
  openUsd : ℚ
  highUsd : ℚ
  lowUsd : ℚ
  closeUsd : ℚ
  openOpn : ℚ
  highOpn : ℚ
  lowOpn : ℚ
  closeOpn : ℚ
  volumeUsd : ℚ
  volumeToken0 : ℤ
  volumeToken1 : ℤ
deriving DecidableEq, Repr

/-- The candle generateCandles derives from the bucket's trades,
given as the first selected row and the remaining rows in query
order (ascending timestamp): open from the first trade, high and low
folded over all trades starting from the first trade's price, close
from the last trade, volumes summed from zero. -/
def batchCandle (firstTrade : CandleTrade) (rest : List CandleTrade) : CandleRow :=
  let trades := firstTrade :: rest
  let lastTrade := rest.getLastD firstTrade
  { openUsd := firstTrade.priceToken0Usd
    highUsd := trades.foldl (fun acc t => max acc t.priceToken0Usd) firstTrade.priceToken0Usd
    lowUsd := trades.foldl (fun acc t => min acc t.priceToken0Usd) firstTrade.priceToken0Usd
    closeUsd := lastTrade.priceToken0Usd
    openOpn := firstTrade.priceToken0Opn
    highOpn := trades.foldl (fun acc t => max acc t.priceToken0Opn) firstTrade.priceToken0Opn
    lowOpn := trades.foldl (fun acc t => min acc t.priceToken0Opn) firstTrade.priceToken0Opn
    closeOpn := lastTrade.priceToken0Opn
    volumeUsd := trades.foldl (fun acc t => acc + t.amountInUsd) 0
    volumeToken0 := trades.foldl (fun acc t => acc + t.token0Amount) 0
    volumeToken1 := trades.foldl (fun acc t => acc + t.token1Amount) 0 }

/-- The conflict action of the generateCandles insert: greatest high,
least low, overwritten close, summed volumes; the open column is not
in the update list and keeps its stored value. -/
def mergeCandle (old new : CandleRow) : CandleRow :=
  { old with
    highUsd := max old.highUsd new.highUsd
    lowUsd := min old.lowUsd new.lowUsd
    closeUsd := new.closeUsd
    highOpn := max old.highOpn new.highOpn
    lowOpn := min old.lowOpn new.lowOpn
    closeOpn := new.closeOpn
    volumeUsd := old.volumeUsd + new.volumeUsd
    volumeToken0 := old.volumeToken0 + new.volumeToken0
    volumeToken1 := old.volumeToken1 + new.volumeToken1 }

/-- The state of one (pair, timeframe, bucket) key of the candles
table under the generateCandles upsert: insert when absent, merge when
present. -/
def applyBatch (cur : Option CandleRow) (new : CandleRow) : Option CandleRow :=
  match cur with
  | none => some new
  | some old => some (mergeCandle old new)

theorem le_getLastD_of_chain (first : CandleTrade) (rest : List CandleTrade)
    (h : List.Chain' (fun s t => s.timestamp ≤ t.timestamp) (first :: rest)) :
    ∀ t ∈ first :: rest, t.timestamp ≤ (rest.getLastD first).timestamp := by
  induction rest generalizing first with
  | nil =>
    intro t ht
    simp only [List.mem_singleton] at ht
    subst ht
    simp [List.getLastD]
  | cons b tl ih =>
    intro t ht
    have hfb : first.timestamp ≤ b.timestamp := (List.chain'_cons.mp h).1
    have htail : List.Chain' (fun s t => s.timestamp ≤ t.timestamp) (b :: tl) :=
      (List.chain'_cons.mp h).2
    rw [List.getLastD_cons]
    rcases List.mem_cons.mp ht with h1 | h2
    · subst h1
      exact le_trans hfb (ih b htail b (List.mem_cons_self _ _))
    · exact ih b htail t h2

end Candles

/-- A single bucket trade used in the counterexample. -/
def cexCandleTrade : Candles.CandleTrade :=
  { timestamp := 10, priceToken0Usd := 1, priceToken0Opn := 20,
    amountInUsd := 5, token0Amount := 1, token1Amount := 1 }

/-- The candle generateCandles derives from that single trade. -/
def cexBatch : Candles.CandleRow := Candles.batchCandle cexCandleTrade []

/-- Counterexample to claim C2 as stated: applying the identical
derived batch twice to the same bucket, which is what successive
generateCandles runs over an unchanged trade set do, doubles the
stored volume from 5 to 10, so the merge is not idempotent and the
candle state does not converge under re-application of the same
trades. -/
theorem claim_C2_counterexample :
    Candles.applyBatch (Candles.applyBatch none cexBatch) cexBatch
      = some (Candles.mergeCandle cexBatch cexBatch) ∧
    (Candles.mergeCandle cexBatch cexBatch).volumeUsd = 10 ∧
    cexBatch.volumeUsd = 5 ∧ ((10 : ℚ) ≠ 5) ∧
    Candles.applyBatch (Candles.applyBatch none cexBatch) cexBatch
      ≠ Candles.applyBatch none cexBatch := by
  have hvol : cexBatch.volumeUsd = 5 := by
    norm_num [cexBatch, Candles.batchCandle, cexCandleTrade]
  have hmerge : (Candles.mergeCandle cexBatch cexBatch).volumeUsd = 10 := by
    norm_num [Candles.mergeCandle, hvol]
  refine ⟨rfl, hmerge, hvol, by norm_num, ?_⟩
  simp only [Candles.applyBatch]
  intro h
  have h2 : Candles.mergeCandle cexBatch cexBatch = cexBatch := Option.some.inj h
  have h3 := congrArg Candles.CandleRow.volumeUsd h2
  rw [hmerge, hvol] at h3
  norm_num at h3

/-- Claim C2 as amended: within the candle merge, the high and low
columns are merged commutatively and idempotently (greatest and
least), and a single derivation pass computes close from the trade
with the maximum timestamp of the bucket; but the close column is
overwritten by the most recent application and the volume columns are
summed on conflict, so applying the same trades again inflates volume
(merging a batch with itself doubles it) rather than converging. -/
theorem claim_C2 (a b : Candles.CandleRow)
    (first : Candles.CandleTrade) (rest : List Candles.CandleTrade)
    (hsort : List.Chain' (fun s t => s.timestamp ≤ t.timestamp) (first :: rest)) :
    (Candles.mergeCandle a b).highUsd = (Candles.mergeCandle b a).highUsd ∧
    (Candles.mergeCandle a b).lowUsd = (Candles.mergeCandle b a).lowUsd ∧
    (Candles.mergeCandle a b).volumeUsd = (Candles.mergeCandle b a).volumeUsd ∧
    (Candles.mergeCandle a a).highUsd = a.highUsd ∧
    (Candles.mergeCandle a a).lowUsd = a.lowUsd ∧
    (Candles.mergeCandle a a).volumeUsd = a.volumeUsd + a.volumeUsd ∧
    (Candles.batchCandle first rest).closeUsd = (rest.getLastD first).priceToken0Usd ∧
    (∀ t ∈ first :: rest, t.timestamp ≤ (rest.getLastD first).timestamp) := by
  refine ⟨?_, ?_, ?_, ?_, ?_, ?_, rfl, Candles.le_getLastD_of_chain first rest hsort⟩
  · simp [Candles.mergeCandle, max_comm]
  · simp [Candles.mergeCandle, min_comm]
  · simp [Candles.mergeCandle, add_comm]
  · simp [Candles.mergeCandle]
  · simp [Candles.mergeCandle]
  · simp [Candles.mergeCandle]

/-- A later trade in the same bucket, used by the claim C2 witness. -/
def cexCandleTrade2 : Candles.CandleTrade :=
  { timestamp := 40, priceToken0Usd := 2, priceToken0Opn := 40,
    amountInUsd := 3, token0Amount := 1, token1Amount := 2 }

/-- Witness for the amended claim C2 on two concrete candle rows and
a two-trade sorted bucket. -/
theorem claim_C2_witness :
    ((Candles.mergeCandle cexBatch (Candles.mergeCandle cexBatch cexBatch)).highUsd
        = (Candles.mergeCandle (Candles.mergeCandle cexBatch cexBatch) cexBatch).highUsd ∧
      (Candles.mergeCandle cexBatch (Candles.mergeCandle cexBatch cexBatch)).lowUsd
        = (Candles.mergeCandle (Candles.mergeCandle cexBatch cexBatch) cexBatch).lowUsd ∧
      (Candles.mergeCandle cexBatch (Candles.mergeCandle cexBatch cexBatch)).volumeUsd
        = (Candles.mergeCandle (Candles.mergeCandle cexBatch cexBatch) cexBatch).volumeUsd ∧
      (Candles.mergeCandle cexBatch cexBatch).highUsd = cexBatch.highUsd ∧
      (Candles.mergeCandle cexBatch cexBatch).lowUsd = cexBatch.lowUsd ∧
      (Candles.mergeCandle cexBatch cexBatch).volumeUsd = cexBatch.volumeUsd + cexBatch.volumeUsd ∧
      (Candles.batchCandle cexCandleTrade [cexCandleTrade2]).closeUsd
        = ([cexCandleTrade2].getLastD cexCandleTrade).priceToken0Usd ∧
      (∀ t ∈ cexCandleTrade :: [cexCandleTrade2],
        t.timestamp ≤ ([cexCandleTrade2].getLastD cexCandleTrade).timestamp)) :=
  claim_C2 cexBatch (Candles.mergeCandle cexBatch cexBatch) cexCandleTrade
    [cexCandleTrade2] (by simp [cexCandleTrade, cexCandleTrade2])

namespace Registry

abbrev Addr := String

structure PairRow where
  address : Addr
  token0 : Addr
  token1 : Addr
deriving DecidableEq, Repr

structure RegState where
  tokensDB : List Addr
  pairsDB : List PairRow
  tokensCache : List (Addr × Addr)
  pairsCache : List Addr
deriving DecidableEq, Repr

/-- The LOWER(address) membership test of the token existence queries. -/
def dbHasToken (db : List Addr) (a : Addr) : Bool :=
  db.any (fun t => toLowerStr t == toLowerStr a)

/-- The SELECT by LOWER(address) of indexToken and indexPairWithData,
returning the stored row's address. -/
def dbFindToken (db : List Addr) (a : Addr) : Option Addr :=
  db.find? (fun t => toLowerStr t == toLowerStr a)

/-- tokensCache lookup; the cache is keyed by lower-cased address (every
write in the source normalizes its key, so the source's secondary
raw-key lookup coincides with this one). -/
def cacheLookup (c : List (Addr × Addr)) (k : Addr) : Option Addr :=
  (c.find? (fun kv => kv.1 == k)).map Prod.snd

/-- Key test of the pairs table. -/
def pairHasAddr (ps : List PairRow) (a : Addr) : Bool :=
  ps.any (fun p => p.address == a)

/-- The pairs insert: on an address conflict only reserves and supply
are updated, so the stored token references stay as they are. -/
def insertPairRow (ps : List PairRow) (p : PairRow) : List PairRow :=
  if pairHasAddr ps p.address then ps else ps ++ [p]

/-- EnhancedDexIndexer.indexToken: check the database first and cache
the confirmed row; otherwise read metadata from the chain (placeholder
values on failure) and commit the token row, caching only after the
insert returns.  A database failure (dbOk false) aborts the call with
no state change and reports failure to the caller. -/
def indexToken (s : RegState) (tokenAddress : Addr) (dbOk : Bool) : RegState × Bool :=
  let normalizedAddress := toLowerStr tokenAddress
  if !dbOk then (s, false)
  else
    match dbFindToken s.tokensDB tokenAddress with
    | some row =>
        ({ s with tokensCache := (normalizedAddress, row) :: s.tokensCache }, true)
    | none =>
        ({ s with tokensDB := s.tokensDB ++ [tokenAddress]
                  tokensCache := (normalizedAddress, tokenAddress) :: s.tokensCache }, true)

/-- EnhancedDexIndexer.indexPairWithData: if both token rows are
cached, insert the pair with the cached row addresses; otherwise query
the database for both tokens and skip the pair entirely when either is
missing, caching and inserting only when both are confirmed. -/
def indexPairWithData (s : RegState) (address token0 token1 : Addr) : RegState :=
  let normalizedToken0 := toLowerStr token0
  let normalizedToken1 := toLowerStr token1
  match cacheLookup s.tokensCache normalizedToken0,
        cacheLookup s.tokensCache normalizedToken1 with
  | some t0row, some t1row =>
      { s with pairsDB := insertPairRow s.pairsDB ⟨address, t0row, t1row⟩
               pairsCache := address :: s.pairsCache }
  | _, _ =>
      match dbFindToken s.tokensDB token0, dbFindToken s.tokensDB token1 with
      | some r0, some r1 =>
          { s with tokensCache := (normalizedToken1, r1) :: (normalizedToken0, r0) :: s.tokensCache
                   pairsDB := insertPairRow s.pairsDB ⟨address, r0, r1⟩
                   pairsCache := address :: s.pairsCache }
      | _, _ => s

/-- EnhancedDexIndexer.indexPair: resolve both tokens through
indexToken first (a token failure propagates to the catch and skips
the pair), then insert the pair only when both tokens are confirmed in
the cache. -/
def indexPair (s : RegState) (pairAddress token0 token1 : Addr) (ok0 ok1 : Bool) : RegState :=
  if s.pairsCache.contains pairAddress then s
  else
    let r0 := indexToken s token0 ok0
    if !r0.2 then r0.1
    else
      let r1 := indexToken r0.1 token1 ok1
      if !r1.2 then r1.1
      else
        let s2 := r1.1
        match cacheLookup s2.tokensCache (toLowerStr token0),
              cacheLookup s2.tokensCache (toLowerStr token1) with
        | some _, some _ =>
            { s2 with pairsDB := insertPairRow s2.pairsDB ⟨pairAddress, token0, token1⟩
                      pairsCache := pairAddress :: s2.pairsCache }
        | _, _ => s2

/-- The registration entry points, with oracle flags for database
failures. -/
inductive RegEvent where
  | token : Addr → Bool → RegEvent
  | pairData : Addr → Addr → Addr → RegEvent
  | pair : Addr → Addr → Addr → Bool → Bool → RegEvent
deriving DecidableEq, Repr

/-- One registration step. -/
def step (s : RegState) : RegEvent → RegState
  | .token a ok => (indexToken s a ok).1
  | .pairData pa t0 t1 => indexPairWithData s pa t0 t1
  | .pair pa t0 t1 ok0 ok1 => indexPair s pa t0 t1 ok0 ok1

/-- Empty storage and caches. -/
def initState : RegState := ⟨[], [], [], []⟩

/-- The registry state reached from empty storage by a sequence of
registration calls. -/
def run (evs : List RegEvent) : RegState := evs.foldl step initState

/-- Cache soundness: every cached token maps its lower-cased key to a
row committed in the tokens table. -/
def CacheOk (s : RegState) : Prop :=
  ∀ kv ∈ s.tokensCache, kv.2 ∈ s.tokensDB ∧ toLowerStr kv.2 = kv.1

/-- The registration ordering invariant: every stored pair references
two committed token rows. -/
def PairsOk (s : RegState) : Prop :=
  ∀ p ∈ s.pairsDB,
    dbHasToken s.tokensDB p.token0 = true ∧ dbHasToken s.tokensDB p.token1 = true

/-- The registry invariant. -/
def Inv (s : RegState) : Prop := CacheOk s ∧ PairsOk s

theorem dbHasToken_of_mem_lower {db : List Addr} {v a : Addr}
    (hv : v ∈ db) (hl : toLowerStr v = toLowerStr a) : dbHasToken db a = true := by
  simp only [dbHasToken, List.any_eq_true]
  exact ⟨v, hv, by simp [hl]⟩

theorem dbHasToken_self {db : List Addr} {v : Addr} (hv : v ∈ db) :
    dbHasToken db v = true := dbHasToken_of_mem_lower hv rfl

theorem dbHasToken_append {db : List Addr} {a : Addr} (l : List Addr)
    (h : dbHasToken db a = true) : dbHasToken (db ++ l) a = true := by
  simp only [dbHasToken, List.any_eq_true] at h ⊢
  rcases h with ⟨t, ht, hp⟩
  exact ⟨t, List.mem_append_left _ ht, hp⟩

theorem dbFindToken_some {db : List Addr} {a r : Addr}
    (h : dbFindToken db a = some r) : r ∈ db ∧ toLowerStr r = toLowerStr a := by
  refine ⟨List.mem_of_find?_eq_some h, ?_⟩
  have := List.find?_some h
  simpa using this

theorem cacheLookup_some {c : List (Addr × Addr)} {k v : Addr}
    (h : cacheLookup c k = some v) : (k, v) ∈ c := by
  unfold cacheLookup at h
  cases hf : c.find? (fun kv => kv.1 == k) with
  | none => rw [hf] at h; simp at h
  | some kv =>
    rw [hf] at h
    have h1 := List.find?_some hf
    have h2 := List.mem_of_find?_eq_some hf
    obtain ⟨k1, v1⟩ := kv
    simp only [beq_iff_eq] at h1
    simp only [Option.map] at h
    cases h
    subst h1
    exact h2

theorem mem_insertPairRow {ps : List PairRow} {p q : PairRow}
    (h : p ∈ insertPairRow ps q) : p ∈ ps ∨ p = q := by
  unfold insertPairRow at h
  by_cases hc : pairHasAddr ps q.address
  · rw [if_pos hc] at h
    exact Or.inl h
  · rw [if_neg hc] at h
    rcases List.mem_append.mp h with h1 | h2
    · exact Or.inl h1
    · simp only [List.mem_singleton] at h2
      exact Or.inr h2

end Registry

namespace Registry

theorem inv_indexToken (s : RegState) (a : Addr) (ok : Bool) (h : Inv s) :
    Inv (indexToken s a ok).1 := by
  obtain ⟨hc, hp⟩ := h
  unfold indexToken
  cases ok
  · simpa using ⟨hc, hp⟩
  · simp only [Bool.not_true, Bool.false_eq_true, if_false]
    cases hf : dbFindToken s.tokensDB a with
    | some row =>
      obtain ⟨hrow, hlow⟩ := dbFindToken_some hf
      refine ⟨?_, hp⟩
      intro kv hkv
      rcases List.mem_cons.mp hkv with h1 | h2
      · subst h1
        exact ⟨hrow, hlow⟩
      · exact hc kv h2
    | none =>
      constructor
      · intro kv hkv
        rcases List.mem_cons.mp hkv with h1 | h2
        · subst h1
          exact ⟨List.mem_append_right _ (List.mem_singleton.mpr rfl), rfl⟩
        · obtain ⟨hmem, hlow⟩ := hc kv h2
          exact ⟨List.mem_append_left _ hmem, hlow⟩
      · intro p hpmem
        obtain ⟨h0, h1⟩ := hp p hpmem
        exact ⟨dbHasToken_append _ h0, dbHasToken_append _ h1⟩

theorem inv_indexPairWithData (s : RegState) (pa t0 t1 : Addr) (h : Inv s) :
    Inv (indexPairWithData s pa t0 t1) := by
  obtain ⟨hc, hp⟩ := h
  simp only [indexPairWithData]
  cases h0 : cacheLookup s.tokensCache (toLowerStr t0) with
  | some t0row =>
    cases h1 : cacheLookup s.tokensCache (toLowerStr t1) with
    | some t1row =>
      obtain ⟨hm0, hl0⟩ := hc _ (cacheLookup_some h0)
      obtain ⟨hm1, hl1⟩ := hc _ (cacheLookup_some h1)
      refine ⟨hc, ?_⟩
      intro p hpmem
      rcases mem_insertPairRow hpmem with hold | hnew
      · exact hp p hold
      · subst hnew
        exact ⟨dbHasToken_self hm0, dbHasToken_self hm1⟩
    | none =>
      cases hf0 : dbFindToken s.tokensDB t0 with
      | some r0 =>
        cases hf1 : dbFindToken s.tokensDB t1 with
        | some r1 =>
          obtain ⟨hm0, hl0⟩ := dbFindToken_some hf0
          obtain ⟨hm1, hl1⟩ := dbFindToken_some hf1
          constructor
          · intro kv hkv
            rcases List.mem_cons.mp hkv with he1 | hkv2
            · subst he1
              exact ⟨hm1, hl1⟩
            · rcases List.mem_cons.mp hkv2 with he0 | hkv3
              · subst he0
                exact ⟨hm0, hl0⟩
              · exact hc kv hkv3
          · intro p hpmem
            rcases mem_insertPairRow hpmem with hold | hnew
            · exact hp p hold
            · subst hnew
              exact ⟨dbHasToken_self hm0, dbHasToken_self hm1⟩
        | none => exact ⟨hc, hp⟩
      | none =>
        cases hf1 : dbFindToken s.tokensDB t1 with
        | some r1 => exact ⟨hc, hp⟩
        | none => exact ⟨hc, hp⟩
  | none =>
    cases hf0 : dbFindToken s.tokensDB t0 with
    | some r0 =>
      cases hf1 : dbFindToken s.tokensDB t1 with
      | some r1 =>
        obtain ⟨hm0, hl0⟩ := dbFindToken_some hf0
        obtain ⟨hm1, hl1⟩ := dbFindToken_some hf1
        constructor
        · intro kv hkv
          rcases List.mem_cons.mp hkv with he1 | hkv2
          · subst he1
            exact ⟨hm1, hl1⟩
          · rcases List.mem_cons.mp hkv2 with he0 | hkv3
            · subst he0
              exact ⟨hm0, hl0⟩
            · exact hc kv hkv3
        · intro p hpmem
          rcases mem_insertPairRow hpmem with hold | hnew
          · exact hp p hold
          · subst hnew
            exact ⟨dbHasToken_self hm0, dbHasToken_self hm1⟩
      | none => exact ⟨hc, hp⟩
    | none =>
      cases hf1 : dbFindToken s.tokensDB t1 with
      | some r1 => exact ⟨hc, hp⟩
      | none => exact ⟨hc, hp⟩

end Registry

namespace Registry

theorem inv_indexPair (s : RegState) (pa t0 t1 : Addr) (ok0 ok1 : Bool) (h : Inv s) :
    Inv (indexPair s pa t0 t1 ok0 ok1) := by
  simp only [indexPair]
  by_cases hpc : s.pairsCache.contains pa
  · simp only [hpc, if_true]
    exact h
  · simp only [hpc, Bool.false_eq_true, if_false]
    have h0 : Inv (indexToken s t0 ok0).1 := inv_indexToken _ _ _ h
    cases hb0 : (indexToken s t0 ok0).2
    · simpa using h0
    · simp only [Bool.not_true, Bool.false_eq_true, if_false]
      have h1 : Inv (indexToken (indexToken s t0 ok0).1 t1 ok1).1 := inv_indexToken _ _ _ h0
      cases hb1 : (indexToken (indexToken s t0 ok0).1 t1 ok1).2
      · simpa using h1
      · simp only [Bool.not_true, Bool.false_eq_true, if_false]
        obtain ⟨hc2, hp2⟩ := h1
        cases hl0 : cacheLookup (indexToken (indexToken s t0 ok0).1 t1 ok1).1.tokensCache (toLowerStr t0) with
        | none => exact ⟨hc2, hp2⟩
        | some v0 =>
          cases hl1 : cacheLookup (indexToken (indexToken s t0 ok0).1 t1 ok1).1.tokensCache (toLowerStr t1) with
          | none => exact ⟨hc2, hp2⟩
          | some v1 =>
            obtain ⟨hm0, hlow0⟩ := hc2 _ (cacheLookup_some hl0)
            obtain ⟨hm1, hlow1⟩ := hc2 _ (cacheLookup_some hl1)
            refine ⟨hc2, ?_⟩
            intro p hpmem
            rcases mem_insertPairRow hpmem with hold | hnew
            · exact hp2 p hold
            · subst hnew
              exact ⟨dbHasToken_of_mem_lower hm0 hlow0, dbHasToken_of_mem_lower hm1 hlow1⟩

theorem inv_step (s : RegState) (e : RegEvent) (h : Inv s) : Inv (step s e) := by
  cases e with
  | token a ok => exact inv_indexToken s a ok h
  | pairData pa t0 t1 => exact inv_indexPairWithData s pa t0 t1 h
  | pair pa t0 t1 ok0 ok1 => exact inv_indexPair s pa t0 t1 ok0 ok1 h

theorem inv_initState : Inv initState := by
  constructor
  · intro kv hkv
    simp [initState] at hkv
  · intro p hp
    simp [initState] at hp

theorem inv_foldl (evs : List RegEvent) (s : RegState) (h : Inv s) :
    Inv (evs.foldl step s) := by
  induction evs generalizing s with
  | nil => exact h
  | cons e tl ih => exact ih _ (inv_step s e h)

theorem inv_run (evs : List RegEvent) : Inv (run evs) :=
  inv_foldl evs initState inv_initState

theorem skip_of_unconfirmed (s : RegState) (pa t0 t1 : Addr) (h : Inv s)
    (h0 : dbHasToken s.tokensDB t0 = false) :
    (indexPairWithData s pa t0 t1).pairsDB = s.pairsDB := by
  obtain ⟨hc, hp⟩ := h
  have hcl : cacheLookup s.tokensCache (toLowerStr t0) = none := by
    cases hl : cacheLookup s.tokensCache (toLowerStr t0) with
    | none => rfl
    | some v =>
      obtain ⟨hm, hlow⟩ := hc _ (cacheLookup_some hl)
      rw [dbHasToken_of_mem_lower hm hlow] at h0
      cases h0
  have hft : dbFindToken s.tokensDB t0 = none := by
    cases hf : dbFindToken s.tokensDB t0 with
    | none => rfl
    | some r =>
      obtain ⟨hm, hlow⟩ := dbFindToken_some hf
      rw [dbHasToken_of_mem_lower hm hlow] at h0
      cases h0
  simp only [indexPairWithData, hcl, hft]

end Registry

/-- A registration trace exercising token, pair and pair-data calls. -/
def cexRegTrace : List Registry.RegEvent :=
  [Registry.RegEvent.token "0xAa" true,
   Registry.RegEvent.pair "0xPP" "0xAa" "0xCc" true true,
   Registry.RegEvent.pairData "0xQQ" "0xAa" "0xCc"]

/-- Claim C6: in every state reachable by registration calls from
empty storage, every stored pair row references two committed token
rows; and from any reachable state, a pair-data registration whose
token0 cannot be confirmed in the tokens table leaves the pairs table
unchanged (the insert is skipped, never performed with a dangling
reference). -/
theorem claim_C6 (evs : List Registry.RegEvent) (pa t0 t1 : Registry.Addr) :
    Registry.PairsOk (Registry.run evs) ∧
    (Registry.dbHasToken (Registry.run evs).tokensDB t0 = false →
      (Registry.indexPairWithData (Registry.run evs) pa t0 t1).pairsDB
        = (Registry.run evs).pairsDB) := by
  refine ⟨(Registry.inv_run evs).2, ?_⟩
  intro h0
  exact Registry.skip_of_unconfirmed _ pa t0 t1 (Registry.inv_run evs) h0

/-- Witness for claim C6 on a concrete trace: the reached pairs all
reference committed tokens, and registering a pair whose first token
is unknown leaves the pairs table unchanged. -/
theorem claim_C6_witness :
    Registry.PairsOk (Registry.run cexRegTrace) ∧
    (Registry.indexPairWithData (Registry.run cexRegTrace) "0xRR" "0xZZ" "0xAa").pairsDB
      = (Registry.run cexRegTrace).pairsDB :=
  ⟨(claim_C6 cexRegTrace "0xRR" "0xZZ" "0xAa").1,
   (claim_C6 cexRegTrace "0xRR" "0xZZ" "0xAa").2 (by decide)⟩

namespace Fanout

/-- Add to a set-like list (Set.add semantics). -/
def addElem (l : List String) (x : String) : List String :=
  if l.contains x then l else x :: l

/-- Remove from a set-like list (Set.delete semantics). -/
def removeElem (l : List String) (x : String) : List String :=
  l.filter (fun y => !(y == x))

/-- Map.set semantics on an association list. -/
def setEntry (m : List (String × List String)) (k : String) (v : List String) :
    List (String × List String) :=
  (k, v) :: m.filter (fun kv => !(kv.1 == k))

/-- Map.delete semantics on an association list. -/
def delEntry (m : List (String × List String)) (k : String) :
    List (String × List String) :=
  m.filter (fun kv => !(kv.1 == k))

/-- Stored current price of a pair: the redis hash the subscribe
handler reads its snapshot from. -/
structure PriceSnapshot where
  price : ℚ
  timestamp : ℕ
  volume24h : ℚ
deriving DecidableEq, Repr

/-- The fanout server's state: the two subscriber bookkeeping maps,
the set of channels subscribed upstream, socket.io room membership,
and the current-price store. -/
structure FanoutState where
  pairSubscriptions : List (String × List String)
  socketSubscriptions : List (String × List String)
  redisChannels : List String
  rooms : List (String × List String)
  priceStore : List (String × PriceSnapshot)
deriving DecidableEq, Repr

def roomMembers (st : FanoutState) (room : String) : List String :=
  (st.rooms.lookup room).getD []

def joinRoom (rooms : List (String × List String)) (room sid : String) :
    List (String × List String) :=
  setEntry rooms room (addElem ((rooms.lookup room).getD []) sid)

def leaveRoom (rooms : List (String × List String)) (room sid : String) :
    List (String × List String) :=
  setEntry rooms room (removeElem ((rooms.lookup room).getD []) sid)

/-- The block repeated in the subscribe, unsubscribe and disconnect
handlers: drop the socket from a pair's subscriber set and, when the
set becomes empty, delete the entry and unsubscribe the upstream price
channel. -/
def cleanupPair (st : FanoutState) (sid pair : String) : FanoutState :=
  match st.pairSubscriptions.lookup pair with
  | none => st
  | some subs =>
      let subs' := removeElem subs sid
      if subs'.length = 0 then
        { st with pairSubscriptions := delEntry st.pairSubscriptions pair
                  redisChannels := removeElem st.redisChannels ("price:" ++ pair) }
      else
        { st with pairSubscriptions := setEntry st.pairSubscriptions pair subs' }

/-- One iteration of the subscribe handler's add loop: on the first
subscriber of a pair, create the empty subscriber set and subscribe
the upstream price channel; then add the socket to the set and join
the pair room. -/
def addPairSub (st : FanoutState) (sid pair : String) : FanoutState :=
  let st1 :=
    match st.pairSubscriptions.lookup pair with
    | none =>
        { st with pairSubscriptions := setEntry st.pairSubscriptions pair []
                  redisChannels := addElem st.redisChannels ("price:" ++ pair) }
    | some _ => st
  let subs := (st1.pairSubscriptions.lookup pair).getD []
  { st1 with pairSubscriptions := setEntry st1.pairSubscriptions pair (addElem subs sid)
             rooms := joinRoom st1.rooms ("pair:" ++ pair) sid }

/-- The subscribe handler: clean up the socket's previous
subscriptions, register the new ones, and record them for the socket. -/
def subscribeStep (st : FanoutState) (sid : String) (pairs : List String) : FanoutState :=
  let previousSubs := (st.socketSubscriptions.lookup sid).getD []
  let st1 := previousSubs.foldl (fun acc pair => cleanupPair acc sid pair) st
  let st2 := pairs.foldl (fun acc pair => addPairSub acc sid pair) st1
  let newSubs := pairs.foldl (fun acc pair => addElem acc pair) []
  { st2 with socketSubscriptions := setEntry st2.socketSubscriptions sid newSubs }

/-- One iteration of the unsubscribe handler's loop: drop the pair
from the socket's record, leave the pair room, then run the shared
subscriber-set cleanup. -/
def unsubIteration (sid : String) (acc : FanoutState) (pair : String) : FanoutState :=
  let subs' := removeElem ((acc.socketSubscriptions.lookup sid).getD []) pair
  let acc1 :=
    { acc with socketSubscriptions := setEntry acc.socketSubscriptions sid subs'
               rooms := leaveRoom acc.rooms ("pair:" ++ pair) sid }
  cleanupPair acc1 sid pair

/-- The unsubscribe handler. -/
def unsubscribeStep (st : FanoutState) (sid : String) (pairs : List String) : FanoutState :=
  match st.socketSubscriptions.lookup sid with
  | none => st
  | some _ => pairs.foldl (unsubIteration sid) st

/-- The subscribe_candles handler: join the candle room and subscribe
the upstream candle channel; no reference counting and no snapshot
emission. -/
def subscribeCandlesStep (st : FanoutState) (sid pair timeframe : String) : FanoutState :=
  { st with rooms := joinRoom st.rooms ("candles:" ++ pair ++ ":" ++ timeframe) sid
            redisChannels := addElem st.redisChannels ("candles:" ++ pair ++ ":" ++ timeframe) }

/-- The disconnect handler: clean up the socket's price subscriptions
and drop its record; socket.io itself removes the socket from every
room.  No candle channel is ever unsubscribed. -/
def disconnectStep (st : FanoutState) (sid : String) : FanoutState :=
  let st1 :=
    match st.socketSubscriptions.lookup sid with
    | none => st
    | some subs =>
        let cleaned := subs.foldl (fun acc pair => cleanupPair acc sid pair) st
        { cleaned with socketSubscriptions := delEntry cleaned.socketSubscriptions sid }
  { st1 with rooms := st1.rooms.map (fun kv => (kv.1, removeElem kv.2 sid)) }

/-- Client-visible messages. -/
inductive Msg where
  | priceSnapshot (pair : String) (price : ℚ) (timestamp : ℕ) (volume24h : ℚ)
  | priceUpdate (pair : String) (price : ℚ) (timestamp : ℕ) (volume : ℚ)
  | candleUpdate (pair timeframe : String) (data : ℚ)
deriving DecidableEq, Repr

def isSnapshot : Msg → Bool
  | .priceSnapshot _ _ _ _ => true
  | _ => false

/-- Events of the fanout server: the four socket handlers, the two
kinds of upstream redis messages, and the producer writing the
current-price hash. -/
inductive FanoutEvent where
  | subscribe (sid : String) (pairs : List String)
  | unsubscribe (sid : String) (pairs : List String)
  | subscribeCandles (sid pair timeframe : String)
  | disconnect (sid : String)
  | priceTick (pair : String) (price : ℚ) (timestamp : ℕ) (volume : ℚ)
  | candleTick (pair timeframe : String) (data : ℚ)
  | storePrice (pair : String) (snap : PriceSnapshot)
deriving DecidableEq, Repr

def step (st : FanoutState) : FanoutEvent → FanoutState
  | .subscribe sid pairs => subscribeStep st sid pairs
  | .unsubscribe sid pairs => unsubscribeStep st sid pairs
  | .subscribeCandles sid pair tf => subscribeCandlesStep st sid pair tf
  | .disconnect sid => disconnectStep st sid
  | .priceTick _ _ _ _ => st
  | .candleTick _ _ _ => st
  | .storePrice pair snap =>
      { st with priceStore := (pair, snap) :: st.priceStore.filter (fun kv => !(kv.1 == pair)) }

/-- Messages each event makes the server emit, as socket-id and
message pairs: the subscribe handler emits the stored snapshot of each
requested pair to the joining socket; redis messages are fanned out to
the members of the matching room; subscribe_candles emits nothing. -/
def emits (st : FanoutState) : FanoutEvent → List (String × Msg)
  | .subscribe sid pairs =>
      pairs.filterMap (fun p =>
        (st.priceStore.lookup p).map (fun snap =>
          (sid, Msg.priceSnapshot p snap.price snap.timestamp snap.volume24h)))
  | .unsubscribe _ _ => []
  | .subscribeCandles _ _ _ => []
  | .disconnect _ => []
  | .priceTick p price ts vol =>
      (roomMembers st ("pair:" ++ p)).map (fun sid => (sid, Msg.priceUpdate p price ts vol))
  | .candleTick p tf d =>
      (roomMembers st ("candles:" ++ p ++ ":" ++ tf)).map (fun sid => (sid, Msg.candleUpdate p tf d))
  | .storePrice _ _ => []

def initState : FanoutState := ⟨[], [], [], [], []⟩

/-- Run a trace from a state, collecting the emitted messages. -/
def runFrom (st : FanoutState) : List FanoutEvent → FanoutState × List (String × Msg)
  | [] => (st, [])
  | e :: evs =>
      let r := runFrom (step st e) evs
      (r.1, emits st e ++ r.2)

def stateAfter (evs : List FanoutEvent) : FanoutState := (runFrom initState evs).1

/-- The messages of an emission log delivered to one client, in order. -/
def deliveredTo (c : String) (out : List (String × Msg)) : List Msg :=
  out.filterMap (fun sm => if sm.1 = c then some sm.2 else none)

/-- The messages delivered to one client over a whole trace, in order. -/
def messagesTo (c : String) (evs : List FanoutEvent) : List Msg :=
  deliveredTo c (runFrom initState evs).2

end Fanout

namespace Fanout

theorem mem_addElem {l : List String} {x y : String} :
    y ∈ addElem l x ↔ y = x ∨ y ∈ l := by
  unfold addElem
  by_cases h : l.contains x
  · rw [if_pos h]
    have hx : x ∈ l := by simpa using h
    constructor
    · exact Or.inr
    · rintro (rfl | hy)
      · exact hx
      · exact hy
  · rw [if_neg h]
    simp [List.mem_cons]

theorem mem_removeElem {l : List String} {x y : String} :
    y ∈ removeElem l x ↔ y ∈ l ∧ y ≠ x := by
  simp [removeElem, List.mem_filter]

theorem lookup_filter_ne (m : List (String × List String)) (k k' : String) (h : k ≠ k') :
    (m.filter (fun kv => !(kv.1 == k'))).lookup k = m.lookup k := by
  induction m with
  | nil => simp
  | cons kv tl ih =>
    obtain ⟨a, b⟩ := kv
    by_cases ha : a = k'
    · subst ha
      have hk : (k == a) = false := by simp [h]
      simp [List.filter_cons, List.lookup, hk, ih]
    · have ha' : (a == k') = false := by simp [ha]
      by_cases hk : k = a
      · subst hk
        simp [List.filter_cons, ha', List.lookup]
      · have hk' : (k == a) = false := by simp [hk]
        simp [List.filter_cons, ha', List.lookup, hk', ih]

theorem lookup_setEntry (m : List (String × List String)) (k' : String)
    (v : List String) (k : String) :
    (setEntry m k' v).lookup k = if k = k' then some v else m.lookup k := by
  by_cases h : k = k'
  · subst h
    simp [setEntry, List.lookup]
  · have h' : (k == k') = false := by simp [h]
    simp [setEntry, List.lookup, h', h, lookup_filter_ne m k k' h]

theorem lookup_delEntry (m : List (String × List String)) (k' k : String) :
    (delEntry m k').lookup k = if k = k' then none else m.lookup k := by
  by_cases h : k = k'
  · subst h
    unfold delEntry
    induction m with
    | nil => simp
    | cons kv tl ih =>
      obtain ⟨a, b⟩ := kv
      by_cases ha : a = k
      · subst ha
        simp [List.filter_cons, ih]
      · have ha' : (a == k) = false := by simp [ha]
        have hk' : (k == a) = false := by
          simp only [beq_eq_false_iff_ne, ne_eq]
          intro hin
          exact ha hin.symm
        simp [List.filter_cons, ha', List.lookup, hk', ih]
  · simp [delEntry, h, lookup_filter_ne m k k' h]

theorem mem_entries_filter {m : List (String × List String)}
    {kv : String × List String} {k' : String}
    (h : kv ∈ m.filter (fun e => !(e.1 == k'))) : kv ∈ m :=
  (List.mem_filter.mp h).1

theorem lookup_some_mem {m : List (String × List String)} {k : String} {v : List String}
    (h : m.lookup k = some v) : (k, v) ∈ m := by
  induction m with
  | nil => simp at h
  | cons kv tl ih =>
    obtain ⟨a, b⟩ := kv
    by_cases hk : k = a
    · subst hk
      simp [List.lookup] at h
      subst h
      exact List.mem_cons_self _ _
    · have hk' : (k == a) = false := by simp [hk]
      simp [List.lookup, hk'] at h
      exact List.mem_cons_of_mem _ (ih h)

theorem addElem_ne_nil (l : List String) (x : String) : addElem l x ≠ [] := by
  unfold addElem
  by_cases h : l.contains x
  · rw [if_pos h]
    have hx : x ∈ l := by simpa using h
    exact List.ne_nil_of_mem hx
  · rw [if_neg h]
    simp

theorem price_chan_inj {p q : String} (h : "price:" ++ p = "price:" ++ q) : p = q := by
  obtain ⟨pd⟩ := p
  obtain ⟨qd⟩ := q
  have hd : "price:".data ++ pd = "price:".data ++ qd := congrArg String.data h
  simp at hd
  rw [hd]

theorem price_ne_candle (p x : String) : ("price:" ++ p) ≠ ("candles:" ++ x) := by
  intro h
  have hd : "price:".data ++ p.data = "candles:".data ++ x.data := congrArg String.data h
  have e1 : "price:".data = ['p', 'r', 'i', 'c', 'e', ':'] := rfl
  have e2 : "candles:".data = ['c', 'a', 'n', 'd', 'l', 'e', 's', ':'] := rfl
  rw [e1, e2] at hd
  simp at hd

/-- For every price channel, the upstream subscription is open exactly
when a subscriber-set entry for the pair exists. -/
def PriceChansOk (st : FanoutState) : Prop :=
  ∀ p : String, ("price:" ++ p) ∈ st.redisChannels ↔ (st.pairSubscriptions.lookup p).isSome

/-- Every pair subscriber set in the map is nonempty. -/
def SubsNonempty (st : FanoutState) : Prop :=
  ∀ kv ∈ st.pairSubscriptions, kv.2 ≠ []

def InvF (st : FanoutState) : Prop := PriceChansOk st ∧ SubsNonempty st

end Fanout

namespace Fanout

theorem invF_cleanupPair (st : FanoutState) (sid pair : String) (h : InvF st) :
    InvF (cleanupPair st sid pair) := by
  obtain ⟨hp, hn⟩ := h
  unfold cleanupPair
  cases hl : st.pairSubscriptions.lookup pair with
  | none => exact ⟨hp, hn⟩
  | some subs =>
    dsimp only
    by_cases hz : (removeElem subs sid).length = 0
    · rw [if_pos hz]
      refine ⟨?_, ?_⟩
      · intro p
        dsimp only
        by_cases hpp : p = pair
        · subst hpp
          rw [lookup_delEntry, if_pos rfl, mem_removeElem]
          simp
        · rw [lookup_delEntry, if_neg hpp, mem_removeElem]
          constructor
          · rintro ⟨hm, _⟩
            exact (hp p).mp hm
          · intro hs
            exact ⟨(hp p).mpr hs, fun he => hpp (price_chan_inj he)⟩
      · intro kv hkv
        exact hn kv (mem_entries_filter hkv)
    · rw [if_neg hz]
      refine ⟨?_, ?_⟩
      · intro p
        dsimp only
        by_cases hpp : p = pair
        · subst hpp
          have hmem : ("price:" ++ p) ∈ st.redisChannels := by
            refine (hp p).mpr ?_
            rw [hl]
            rfl
          simp [lookup_setEntry, hmem]
        · rw [lookup_setEntry, if_neg hpp]
          exact hp p
      · intro kv hkv
        rcases List.mem_cons.mp hkv with h1 | h2
        · subst h1
          intro hnil
          apply hz
          simp only at hnil
          rw [hnil]
          rfl
        · exact hn kv (mem_entries_filter h2)

theorem invF_addPairSub (st : FanoutState) (sid pair : String) (h : InvF st) :
    InvF (addPairSub st sid pair) := by
  obtain ⟨hp, hn⟩ := h
  unfold addPairSub
  cases hl : st.pairSubscriptions.lookup pair with
  | none =>
    dsimp only
    rw [lookup_setEntry, if_pos rfl]
    dsimp only [Option.getD]
    refine ⟨?_, ?_⟩
    · intro p
      dsimp only
      by_cases hpp : p = pair
      · subst hpp
        rw [lookup_setEntry, if_pos rfl]
        simp only [Option.isSome_some, iff_true]
        exact mem_addElem.mpr (Or.inl rfl)
      · rw [lookup_setEntry, if_neg hpp, lookup_setEntry, if_neg hpp, mem_addElem]
        constructor
        · rintro (he | hm)
          · exact absurd (price_chan_inj he) hpp
          · exact (hp p).mp hm
        · intro hs
          exact Or.inr ((hp p).mpr hs)
    · intro kv hkv
      rcases List.mem_cons.mp hkv with h1 | h2
      · subst h1
        dsimp only
        exact addElem_ne_nil _ _
      · have h3 := mem_entries_filter h2
        rcases List.mem_cons.mp h3 with h4 | h5
        · exfalso
          have hpred := (List.mem_filter.mp h2).2
          rw [h4] at hpred
          simp at hpred
        · exact hn kv (mem_entries_filter h5)
  | some subs0 =>
    dsimp only
    rw [hl]
    dsimp only [Option.getD]
    refine ⟨?_, ?_⟩
    · intro p
      dsimp only
      by_cases hpp : p = pair
      · subst hpp
        have hmem : ("price:" ++ p) ∈ st.redisChannels := by
          refine (hp p).mpr ?_
          rw [hl]
          rfl
        simp [lookup_setEntry, hmem]
      · rw [lookup_setEntry, if_neg hpp]
        exact hp p
    · intro kv hkv
      rcases List.mem_cons.mp hkv with h1 | h2
      · subst h1
        dsimp only
        exact addElem_ne_nil _ _
      · exact hn kv (mem_entries_filter h2)

end Fanout

namespace Fanout

theorem invF_cleanup_foldl (l : List String) (sid : String) (st : FanoutState)
    (h : InvF st) : InvF (l.foldl (fun acc pair => cleanupPair acc sid pair) st) := by
  induction l generalizing st with
  | nil => exact h
  | cons p tl ih => exact ih _ (invF_cleanupPair st sid p h)

theorem invF_add_foldl (l : List String) (sid : String) (st : FanoutState)
    (h : InvF st) : InvF (l.foldl (fun acc pair => addPairSub acc sid pair) st) := by
  induction l generalizing st with
  | nil => exact h
  | cons p tl ih => exact ih _ (invF_addPairSub st sid p h)

theorem invF_subscribeStep (st : FanoutState) (sid : String) (pairs : List String)
    (h : InvF st) : InvF (subscribeStep st sid pairs) := by
  unfold subscribeStep
  have h1 := invF_cleanup_foldl ((st.socketSubscriptions.lookup sid).getD []) sid st h
  have h2 := invF_add_foldl pairs sid _ h1
  exact ⟨h2.1, h2.2⟩

theorem invF_unsub_foldl (l : List String) (sid : String) (st : FanoutState)
    (h : InvF st) : InvF (l.foldl (unsubIteration sid) st) := by
  induction l generalizing st with
  | nil => exact h
  | cons p tl ih =>
    refine ih _ ?_
    unfold unsubIteration
    exact invF_cleanupPair _ sid p ⟨h.1, h.2⟩

theorem invF_unsubscribeStep (st : FanoutState) (sid : String) (pairs : List String)
    (h : InvF st) : InvF (unsubscribeStep st sid pairs) := by
  unfold unsubscribeStep
  cases st.socketSubscriptions.lookup sid with
  | none => exact h
  | some subs => exact invF_unsub_foldl pairs sid st h

theorem invF_disconnectStep (st : FanoutState) (sid : String) (h : InvF st) :
    InvF (disconnectStep st sid) := by
  unfold disconnectStep
  cases st.socketSubscriptions.lookup sid with
  | none => exact ⟨h.1, h.2⟩
  | some subs =>
    have h1 := invF_cleanup_foldl subs sid st h
    exact ⟨h1.1, h1.2⟩

theorem invF_subscribeCandlesStep (st : FanoutState) (sid pair tf : String)
    (h : InvF st) : InvF (subscribeCandlesStep st sid pair tf) := by
  obtain ⟨hp, hn⟩ := h
  unfold subscribeCandlesStep
  refine ⟨?_, hn⟩
  intro p
  dsimp only
  rw [mem_addElem]
  constructor
  · rintro (he | hm)
    · exact absurd he (price_ne_candle p _)
    · exact (hp p).mp hm
  · intro hs
    exact Or.inr ((hp p).mpr hs)

theorem invF_step (st : FanoutState) (e : FanoutEvent) (h : InvF st) :
    InvF (step st e) := by
  cases e with
  | subscribe sid pairs => exact invF_subscribeStep st sid pairs h
  | unsubscribe sid pairs => exact invF_unsubscribeStep st sid pairs h
  | subscribeCandles sid pair tf => exact invF_subscribeCandlesStep st sid pair tf h
  | disconnect sid => exact invF_disconnectStep st sid h
  | priceTick p price ts vol => exact h
  | candleTick p tf d => exact h
  | storePrice pair snap => exact ⟨h.1, h.2⟩

theorem invF_initState : InvF initState := by
  refine ⟨?_, ?_⟩
  · intro p
    simp [initState, List.lookup]
  · intro kv hkv
    simp [initState] at hkv

theorem invF_runFrom (evs : List FanoutEvent) (st : FanoutState) (h : InvF st) :
    InvF (runFrom st evs).1 := by
  induction evs generalizing st with
  | nil => exact h
  | cons e tl ih => exact ih _ (invF_step st e h)

theorem invF_stateAfter (evs : List FanoutEvent) : InvF (stateAfter evs) :=
  invF_runFrom evs initState invF_initState

end Fanout

namespace Fanout

theorem candle_kept_cleanupPair (st : FanoutState) (sid pair ch : String)
    (hform : ∀ q, ch ≠ "price:" ++ q) (hm : ch ∈ st.redisChannels) :
    ch ∈ (cleanupPair st sid pair).redisChannels := by
  unfold cleanupPair
  cases st.pairSubscriptions.lookup pair with
  | none => exact hm
  | some subs =>
    dsimp only
    by_cases hz : (removeElem subs sid).length = 0
    · rw [if_pos hz]
      exact mem_removeElem.mpr ⟨hm, hform pair⟩
    · rw [if_neg hz]
      exact hm

theorem candle_kept_cleanup_foldl (l : List String) (sid ch : String) (st : FanoutState)
    (hform : ∀ q, ch ≠ "price:" ++ q) (hm : ch ∈ st.redisChannels) :
    ch ∈ (l.foldl (fun acc pair => cleanupPair acc sid pair) st).redisChannels := by
  induction l generalizing st with
  | nil => exact hm
  | cons p tl ih => exact ih _ (candle_kept_cleanupPair st sid p ch hform hm)

theorem candle_kept_addPairSub (st : FanoutState) (sid pair ch : String)
    (hm : ch ∈ st.redisChannels) : ch ∈ (addPairSub st sid pair).redisChannels := by
  unfold addPairSub
  cases st.pairSubscriptions.lookup pair with
  | none =>
    dsimp only
    exact mem_addElem.mpr (Or.inr hm)
  | some subs0 => exact hm

theorem candle_kept_add_foldl (l : List String) (sid ch : String) (st : FanoutState)
    (hm : ch ∈ st.redisChannels) :
    ch ∈ (l.foldl (fun acc pair => addPairSub acc sid pair) st).redisChannels := by
  induction l generalizing st with
  | nil => exact hm
  | cons p tl ih => exact ih _ (candle_kept_addPairSub st sid p ch hm)

theorem candle_kept_unsub_foldl (l : List String) (sid ch : String) (st : FanoutState)
    (hform : ∀ q, ch ≠ "price:" ++ q) (hm : ch ∈ st.redisChannels) :
    ch ∈ (l.foldl (unsubIteration sid) st).redisChannels := by
  induction l generalizing st with
  | nil => exact hm
  | cons p tl ih =>
    refine ih _ ?_
    unfold unsubIteration
    exact candle_kept_cleanupPair _ sid p ch hform hm

theorem candle_kept_step (st : FanoutState) (e : FanoutEvent) (ch : String)
    (hform : ∀ q, ch ≠ "price:" ++ q) (hm : ch ∈ st.redisChannels) :
    ch ∈ (step st e).redisChannels := by
  cases e with
  | subscribe sid pairs =>
    show ch ∈ (subscribeStep st sid pairs).redisChannels
    unfold subscribeStep
    exact candle_kept_add_foldl pairs sid ch _
      (candle_kept_cleanup_foldl _ sid ch st hform hm)
  | unsubscribe sid pairs =>
    show ch ∈ (unsubscribeStep st sid pairs).redisChannels
    unfold unsubscribeStep
    cases st.socketSubscriptions.lookup sid with
    | none => exact hm
    | some subs => exact candle_kept_unsub_foldl pairs sid ch st hform hm
  | subscribeCandles sid pair tf =>
    show ch ∈ (subscribeCandlesStep st sid pair tf).redisChannels
    unfold subscribeCandlesStep
    exact mem_addElem.mpr (Or.inr hm)
  | disconnect sid =>
    show ch ∈ (disconnectStep st sid).redisChannels
    unfold disconnectStep
    cases st.socketSubscriptions.lookup sid with
    | none => exact hm
    | some subs => exact candle_kept_cleanup_foldl subs sid ch st hform hm
  | priceTick p price ts vol => exact hm
  | candleTick p tf d => exact hm
  | storePrice pair snap => exact hm

theorem price_ne_candle3 (q pair tf : String) :
    ("price:" ++ q) ≠ ("candles:" ++ pair ++ ":" ++ tf) := by
  intro h
  have hd : "price:".data ++ q.data
      = (("candles:".data ++ pair.data) ++ ":".data) ++ tf.data := congrArg String.data h
  have e1 : "price:".data = ['p', 'r', 'i', 'c', 'e', ':'] := rfl
  have e2 : "candles:".data = ['c', 'a', 'n', 'd', 'l', 'e', 's', ':'] := rfl
  rw [e1, e2] at hd
  simp at hd

theorem runFrom_append (st : FanoutState) (l1 l2 : List FanoutEvent) :
    runFrom st (l1 ++ l2)
      = ((runFrom (runFrom st l1).1 l2).1,
         (runFrom st l1).2 ++ (runFrom (runFrom st l1).1 l2).2) := by
  induction l1 generalizing st with
  | nil => simp [runFrom]
  | cons e tl ih => simp [runFrom, ih]

theorem deliveredTo_append (c : String) (o1 o2 : List (String × Msg)) :
    deliveredTo c (o1 ++ o2) = deliveredTo c o1 ++ deliveredTo c o2 := by
  simp [deliveredTo, List.filterMap_append]

end Fanout

/-- Counterexample to claim C7 as stated: after a client subscribes to
a candle channel and disconnects, the upstream candle channel is still
subscribed although no subscriber of any kind remains (its room is
empty and both bookkeeping maps are empty): candle channels are not
reference counted and never unsubscribed. -/
theorem claim_C7_counterexample :
    ("candles:" ++ "P" ++ ":" ++ "1m") ∈
      (Fanout.stateAfter [Fanout.FanoutEvent.subscribeCandles "s1" "P" "1m",
        Fanout.FanoutEvent.disconnect "s1"]).redisChannels ∧
    Fanout.roomMembers
      (Fanout.stateAfter [Fanout.FanoutEvent.subscribeCandles "s1" "P" "1m",
        Fanout.FanoutEvent.disconnect "s1"]) ("candles:" ++ "P" ++ ":" ++ "1m") = [] ∧
    (Fanout.stateAfter [Fanout.FanoutEvent.subscribeCandles "s1" "P" "1m",
        Fanout.FanoutEvent.disconnect "s1"]).pairSubscriptions = [] ∧
    (Fanout.stateAfter [Fanout.FanoutEvent.subscribeCandles "s1" "P" "1m",
        Fanout.FanoutEvent.disconnect "s1"]).socketSubscriptions = [] := by
  refine ⟨by decide, by decide, by decide, by decide⟩

/-- Claim C7 as amended: in every reachable fanout state, a price
channel is subscribed upstream exactly when its pair has a (nonempty)
subscriber-set entry — first subscriber opens it, last leaving closes
it, through subscribe, unsubscribe and disconnect alike; candle
channels, by contrast, once opened are never closed by any event. -/
theorem claim_C7 (evs : List Fanout.FanoutEvent) (e : Fanout.FanoutEvent) (ch : String) :
    (∀ p, ("price:" ++ p) ∈ (Fanout.stateAfter evs).redisChannels ↔
        ((Fanout.stateAfter evs).pairSubscriptions.lookup p).isSome) ∧
    (∀ kv ∈ (Fanout.stateAfter evs).pairSubscriptions, kv.2 ≠ []) ∧
    ((∃ pair tf, ch = "candles:" ++ pair ++ ":" ++ tf) →
      ch ∈ (Fanout.stateAfter evs).redisChannels →
      ch ∈ (Fanout.step (Fanout.stateAfter evs) e).redisChannels) := by
  refine ⟨(Fanout.invF_stateAfter evs).1, (Fanout.invF_stateAfter evs).2, ?_⟩
  rintro ⟨pair, tf, rfl⟩ hm
  exact Fanout.candle_kept_step _ e _
    (fun q => (Fanout.price_ne_candle3 q pair tf).symm) hm

/-- Witness for claim C7: a candle channel opened by one subscriber
survives that subscriber's disconnect. -/
theorem claim_C7_witness :
    ("candles:" ++ "P" ++ ":" ++ "1m") ∈
      (Fanout.step (Fanout.stateAfter [Fanout.FanoutEvent.subscribeCandles "s1" "P" "1m"])
        (Fanout.FanoutEvent.disconnect "s1")).redisChannels :=
  (claim_C7 [Fanout.FanoutEvent.subscribeCandles "s1" "P" "1m"]
      (Fanout.FanoutEvent.disconnect "s1") ("candles:" ++ "P" ++ ":" ++ "1m")).2.2
    ⟨"P", "1m", rfl⟩ (by decide)

/-- Counterexample to claim C8 as stated: a client that joins a candle
channel mid-stream receives no snapshot at all — its first delivered
message is the next live tick, not the in-progress candle. -/
theorem claim_C8_counterexample :
    Fanout.messagesTo "c1"
        [Fanout.FanoutEvent.subscribeCandles "c1" "P" "1m",
         Fanout.FanoutEvent.candleTick "P" "1m" 42]
      = [Fanout.Msg.candleUpdate "P" "1m" 42] ∧
    Fanout.isSnapshot (Fanout.Msg.candleUpdate "P" "1m" 42) = false := by
  exact ⟨rfl, rfl⟩

/-- Claim C8 as amended: a client subscribing to a price channel
mid-stream, having received nothing before, gets the stored
point-in-time price snapshot as its first message, and live ticks only
after it; candle-channel joins emit no snapshot whatsoever. -/
theorem claim_C8 (pre post : List Fanout.FanoutEvent) (c p : String)
    (snap : Fanout.PriceSnapshot)
    (hstore : (Fanout.stateAfter pre).priceStore.lookup p = some snap)
    (hfresh : Fanout.messagesTo c pre = []) :
    (∃ rest, Fanout.messagesTo c (pre ++ Fanout.FanoutEvent.subscribe c [p] :: post)
        = Fanout.Msg.priceSnapshot p snap.price snap.timestamp snap.volume24h :: rest) ∧
    (∀ (st : Fanout.FanoutState) (sid pair tf : String),
      Fanout.emits st (Fanout.FanoutEvent.subscribeCandles sid pair tf) = []) := by
  refine ⟨?_, fun st sid pair tf => rfl⟩
  refine ⟨Fanout.deliveredTo c
    (Fanout.runFrom (Fanout.step (Fanout.stateAfter pre)
      (Fanout.FanoutEvent.subscribe c [p])) post).2, ?_⟩
  unfold Fanout.messagesTo at hfresh ⊢
  rw [Fanout.runFrom_append]
  dsimp only
  rw [Fanout.deliveredTo_append, hfresh]
  have hemit : Fanout.emits (Fanout.stateAfter pre) (Fanout.FanoutEvent.subscribe c [p])
      = [(c, Fanout.Msg.priceSnapshot p snap.price snap.timestamp snap.volume24h)] := by
    simp [Fanout.emits, hstore]
  show Fanout.deliveredTo c
      (Fanout.emits (Fanout.stateAfter pre) (Fanout.FanoutEvent.subscribe c [p])
        ++ (Fanout.runFrom (Fanout.step (Fanout.stateAfter pre)
              (Fanout.FanoutEvent.subscribe c [p])) post).2) = _
  rw [Fanout.deliveredTo_append, hemit]
  simp [Fanout.deliveredTo]

/-- Witness for the amended claim C8: with a stored price for pair P,
a fresh client subscribing receives the snapshot first, then the later
live tick. -/
theorem claim_C8_witness :
    (∃ rest, Fanout.messagesTo "c1"
        ([Fanout.FanoutEvent.storePrice "P" ⟨2, 100, 7⟩]
          ++ Fanout.FanoutEvent.subscribe "c1" ["P"]
              :: [Fanout.FanoutEvent.priceTick "P" 3 200 9])
        = Fanout.Msg.priceSnapshot "P" (2 : ℚ) 100 (7 : ℚ) :: rest) ∧
    (∀ (st : Fanout.FanoutState) (sid pair tf : String),
      Fanout.emits st (Fanout.FanoutEvent.subscribeCandles sid pair tf) = []) :=
  claim_C8 [Fanout.FanoutEvent.storePrice "P" ⟨2, 100, 7⟩]
    [Fanout.FanoutEvent.priceTick "P" 3 200 9] "c1" "P" ⟨2, 100, 7⟩ rfl rfl
